import Mathlib

/-!
# Verification of the OCI metrics report generator

A shallow embedding of the pure logic of `app.py` and `generate_report.py`:
the auth-resolver (`get_signer`), the monitoring client operations
(`list_compartments`, `list_metrics`, `query_metrics`), the region client
manager (`get_available_regions`), the multi-region fan-out endpoint
(`api_query_unified`) and the CLI output-path selection.

External effects (the OCI SDK, the file system, environment variables) are
modelled as explicit environment records whose fields are the results of the
corresponding calls; the Python code around them is translated directly.
Python's `sorted` (a stable comparison sort) is modelled by insertion sort
over a boolean comparator, and Python string comparison by code-point
lexicographic order on the character list.
-/

/-- Code-point lexicographic `≤` on character lists, as Python compares
strings. -/
def charListLe : List Char → List Char → Bool
  | [], _ => true
  | _ :: _, [] => false
  | a :: as, b :: bs => if a = b then charListLe as bs else decide (a < b)

/-- Python string `<=`: lexicographic on the code points. -/
def pyStrLe (a b : String) : Bool := charListLe a.data b.data

/-- Python `sorted` with a comparator: a stable sort.  Python's Timsort and
insertion sort compute the same list for any total transitive comparator,
so insertion sort is used as the model. -/
def pySort (le : α → α → Bool) (l : List α) : List α :=
  List.insertionSort (fun a b => le a b = true) l

/-- Python `sep.join(xs)`. -/
def pyJoin (sep : String) : List String → String
  | [] => ""
  | [x] => x
  | x :: y :: xs => x ++ sep ++ pyJoin sep (y :: xs)

/-- Python tuple comparison on string pairs (used by
`sorted(dimensions.items())`). -/
def pyPairLe (p q : String × String) : Bool :=
  if p.1 = q.1 then pyStrLe p.2 q.2 else pyStrLe p.1 q.1

/-- Python `str.strip()` on the default whitespace characters. -/
def pyStrip (s : String) : String :=
  ⟨((s.data.dropWhile Char.isWhitespace).reverse.dropWhile Char.isWhitespace).reverse⟩

/-- Left zero-padding to two digits (`%02d`). -/
def pad2 (n : Nat) : String := if n < 10 then "0" ++ toString n else toString n

/-- Left zero-padding to four digits (`%04d`). -/
def pad4 (n : Nat) : String :=
  if n < 10 then "000" ++ toString n
  else if n < 100 then "00" ++ toString n
  else if n < 1000 then "0" ++ toString n
  else toString n

/-- Left zero-padding to six digits (`%06d`). -/
def pad6 (n : Nat) : String :=
  if n < 10 then "00000" ++ toString n
  else if n < 100 then "0000" ++ toString n
  else if n < 1000 then "000" ++ toString n
  else if n < 10000 then "00" ++ toString n
  else if n < 100000 then "0" ++ toString n
  else toString n

/-- A Python `datetime`: calendar fields plus an optional UTC offset in
minutes.  `utcoffset_minutes = none` models a timezone-naive value. -/
structure DateTime where
  year : Nat
  month : Nat
  day : Nat
  hour : Nat
  minute : Nat
  second : Nat
  microsecond : Nat
  utcoffset_minutes : Option Int
deriving DecidableEq

/-- Python `datetime.isoformat()`: `YYYY-MM-DDTHH:MM:SS`, the microseconds
when nonzero, and the signed `±HH:MM` offset for timezone-aware values. -/
def DateTime.isoformat (t : DateTime) : String :=
  pad4 t.year ++ "-" ++ pad2 t.month ++ "-" ++ pad2 t.day ++ "T" ++
    pad2 t.hour ++ ":" ++ pad2 t.minute ++ ":" ++ pad2 t.second ++
    (if t.microsecond = 0 then "" else "." ++ pad6 t.microsecond) ++
    (match t.utcoffset_minutes with
     | none => ""
     | some off =>
         (if off < 0 then "-" else "+") ++
           pad2 (off.natAbs / 60) ++ ":" ++ pad2 (off.natAbs % 60))

/-- One aggregated datapoint of an OCI `MetricData` item, as handed back by
the SDK: a `datetime` timestamp and a numeric value. -/
structure AggregatedDatapoint where
  timestamp : DateTime
  value : Int
deriving DecidableEq

/-- An OCI `MetricData` item from `summarize_metrics_data`; dictionaries are
association lists, and an absent/empty `dimensions` or `metadata` dict is the
empty list. -/
structure MetricData where
  name : String
  namespace_ : String
  dimensions : List (String × String)
  metadata : List (String × String)
  aggregated_datapoints : List AggregatedDatapoint
deriving DecidableEq

/-- A point of the JSON `data_points` array built by `query_metrics`. -/
structure DataPoint where
  timestamp : String
  value : Int
deriving DecidableEq

/-- One series of the `query_metrics` JSON result. -/
structure Series where
  name : String
  namespace_ : String
  dimensions : List (String × String)
  label : String
  unit : String
  data_points : List DataPoint
deriving DecidableEq

/-- The JSON result of `OCIMonitoringClient.query_metrics`. -/
structure QueryResult where
  query : String
  namespace_ : String
  start_time : String
  end_time : String
  metric_data : List Series
deriving DecidableEq

/-- The `SummarizeMetricsDataDetails` request object built inside
`query_metrics` (app.py lines 485-491). -/
structure SummarizeMetricsDataDetails where
  namespace_ : String
  query : String
  start_time : String
  end_time : String
  resolution : Option String
deriving DecidableEq

/-- app.py lines 485-491: naive datetimes get a literal `"Z"` appended to
their ISO rendering, aware ones are submitted as rendered. -/
def mk_summarize_details (namespace_ query : String) (start_time end_time : DateTime)
    (resolution : Option String) : SummarizeMetricsDataDetails :=
  { namespace_ := namespace_
    query := query
    start_time :=
      if start_time.utcoffset_minutes = none then start_time.isoformat ++ "Z"
      else start_time.isoformat
    end_time :=
      if end_time.utcoffset_minutes = none then end_time.isoformat ++ "Z"
      else end_time.isoformat
    resolution := resolution }

/-- The label synthesized for a series (app.py lines 508-511): the metric
name, then the sorted `k=v` dimension pairs in parentheses when any exist. -/
def build_label (md : MetricData) : String :=
  let label_parts := [md.name]
  let label_parts :=
    if md.dimensions = [] then label_parts
    else label_parts ++
      ["(" ++ pyJoin ", " ((pySort pyPairLe md.dimensions).map
        (fun kv => kv.1 ++ "=" ++ kv.2)) ++ ")"]
  pyJoin " " label_parts

/-- app.py lines 506-528: one result series from one SDK `MetricData`. -/
def build_series (md : MetricData) : Series :=
  { name := md.name
    namespace_ := md.namespace_
    dimensions := md.dimensions
    label := build_label md
    unit := (md.metadata.lookup "unit").getD ""
    data_points := md.aggregated_datapoints.map
      (fun p => { timestamp := p.timestamp.isoformat, value := p.value }) }

/-- A monitoring client: the result of each `summarize_metrics_data` call,
keyed by compartment and request details.  `Except.error` models a raised
SDK exception. -/
structure MonitoringClient where
  summarize_metrics_data :
    String → SummarizeMetricsDataDetails → Except String (List MetricData)

/-- `OCIMonitoringClient.query_metrics` (app.py lines 467-534): build the
details, call the SDK, convert each returned series; exceptions propagate. -/
def query_metrics (client : MonitoringClient) (compartment_id namespace_ query : String)
    (start_time end_time : DateTime) (resolution : Option String) :
    Except String QueryResult :=
  let details := mk_summarize_details namespace_ query start_time end_time resolution
  match client.summarize_metrics_data compartment_id details with
  | .error e => .error e
  | .ok response =>
      .ok { query := query
            namespace_ := namespace_
            start_time := start_time.isoformat
            end_time := end_time.isoformat
            metric_data := response.map build_series }

/-- A compartment dict as returned by `list_compartments` and stored in the
process-wide `_compartment_cache`. -/
structure CompartmentEntry where
  id : String
  name : String
  path : String
deriving DecidableEq

/-- `get_compartment_name` (app.py lines 544-548): the cached display name,
or the raw id when the id is not in the cache. -/
def get_compartment_name (cache : List (String × CompartmentEntry))
    (compartment_id : String) : String :=
  match cache.lookup compartment_id with
  | some comp => comp.name
  | none => compartment_id

/-- A region subscription row from `list_region_subscriptions`. -/
structure RegionSubscription where
  region_name : String
  status : String
deriving DecidableEq

/-- `OCIRegionClientManager`: the default region from the base config, the
result of creating a client per region (`Except.error` models a constructor
exception), and the result of the region-subscription listing. -/
structure RegionManager where
  default_region : String
  get_client : String → Except String MonitoringClient
  list_region_subscriptions : Except String (List RegionSubscription)

/-- `OCIRegionClientManager.get_available_regions` (app.py lines 591-610):
sorted READY subscription names, or `[default_region]` when listing
raises. -/
def get_available_regions (m : RegionManager) : List String :=
  match m.list_region_subscriptions with
  | .ok regions =>
      pySort pyStrLe
        ((regions.filter (fun r => r.status == "READY")).map (fun r => r.region_name))
  | .error _ => [m.default_region]

/-- app.py lines 946-950: drop falsy entries (JSON `null` and the empty
string) from the request's `regions`, then default to the manager's region
when nothing remains.  The outer `none` models an absent `regions` key. -/
def effective_regions (m : RegionManager)
    (regionsField : Option (List (Option String))) : List String :=
  let regions := (regionsField.getD []).filterMap
    (fun r => match r with
      | none => none
      | some s => if s = "" then none else some s)
  if regions = [] then [m.default_region] else regions

/-- The `_source` tag added to each series by the unified endpoint. -/
structure SourceTag where
  region : String
  compartment_id : String
  compartment_name : String
deriving DecidableEq

/-- A series of the unified response: the `query_metrics` series plus the
origin tag, the composite label and the preserved `short_label`. -/
structure EnrichedSeries where
  name : String
  namespace_ : String
  dimensions : List (String × String)
  label : String
  unit : String
  data_points : List DataPoint
  source : SourceTag
  short_label : String
deriving DecidableEq

/-- app.py lines 997-1006: tag a series with its origin and rewrite the
label to `<original> [<region>] (<compartment_name>)`. -/
def enrich_series (region compartment_id compartment_name : String)
    (s : Series) : EnrichedSeries :=
  { name := s.name
    namespace_ := s.namespace_
    dimensions := s.dimensions
    unit := s.unit
    data_points := s.data_points
    source := { region := region, compartment_id := compartment_id,
                compartment_name := compartment_name }
    label := s.label ++ " [" ++ region ++ "] (" ++ compartment_name ++ ")"
    short_label := s.label }

/-- One entry of the unified response's `results` array (app.py lines
1011-1016). -/
structure UnifiedResult where
  region : String
  compartment_id : String
  compartment_name : String
  query : String
  namespace_ : String
  start_time : String
  end_time : String
  metric_data : List EnrichedSeries
deriving DecidableEq

/-- One entry of the unified response's `errors` array.  Entries recorded
when a region's client cannot be created carry no `compartment_name` key
(app.py lines 974-979), hence the `Option`. -/
structure UnifiedError where
  region : String
  compartment_id : String
  compartment_name : Option String
  error : String
deriving DecidableEq

/-- The error entry recorded for every compartment of a region whose client
construction raised (app.py lines 974-979). -/
def connection_error (region e compartment_id : String) : UnifiedError :=
  { region := region
    compartment_id := compartment_id
    compartment_name := none
    error := "Failed to connect to region " ++ region ++ ": " ++ e }

/-- app.py lines 982-1025: the body of the per-compartment loop — one query
attempt yielding either an enriched result entry or an error entry. -/
def query_one (cache : List (String × CompartmentEntry)) (client : MonitoringClient)
    (namespace_ query : String) (start_time end_time : DateTime)
    (resolution : Option String) (region compartment_id : String) :
    Sum UnifiedResult UnifiedError :=
  match query_metrics client compartment_id namespace_ query start_time end_time resolution with
  | .ok result =>
      let compartment_name := get_compartment_name cache compartment_id
      .inl { region := region
             compartment_id := compartment_id
             compartment_name := compartment_name
             query := result.query
             namespace_ := result.namespace_
             start_time := result.start_time
             end_time := result.end_time
             metric_data := result.metric_data.map
               (enrich_series region compartment_id compartment_name) }
  | .error e =>
      .inr { region := region
             compartment_id := compartment_id
             compartment_name := some (get_compartment_name cache compartment_id)
             error := e }

/-- app.py lines 969-1025: process one region — on client failure one
connection error per compartment, otherwise one query attempt per
compartment, split into the appended results and errors. -/
def process_region (m : RegionManager) (cache : List (String × CompartmentEntry))
    (compartment_ids : List String) (namespace_ query : String)
    (start_time end_time : DateTime) (resolution : Option String)
    (region : String) : List UnifiedResult × List UnifiedError :=
  match m.get_client region with
  | .error e => ([], compartment_ids.map (connection_error region e))
  | .ok client =>
      let outcomes := compartment_ids.map
        (query_one cache client namespace_ query start_time end_time resolution region)
      (outcomes.filterMap Sum.getLeft?, outcomes.filterMap Sum.getRight?)

/-- The `metadata` object of the unified response (app.py lines 1030-1036). -/
structure UnifiedMetadata where
  total_regions : Nat
  total_compartments : Nat
  total_queries : Nat
  successful_queries : Nat
  failed_queries : Nat
deriving DecidableEq

/-- The unified response body. -/
structure UnifiedResponse where
  results : List UnifiedResult
  errors : List UnifiedError
  metadata : UnifiedMetadata
deriving DecidableEq

/-- `api_query_unified` (app.py lines 913-1037) after request validation and
date parsing: the sequential fan-out over the region × compartment cross
product.  The two loops append to `results`/`errors` in traversal order, so
the response lists are the per-region concatenations. -/
def api_query_unified (m : RegionManager) (cache : List (String × CompartmentEntry))
    (regionsField : Option (List (Option String))) (compartment_ids : List String)
    (namespace_ query : String) (start_time end_time : DateTime)
    (resolution : Option String) : UnifiedResponse :=
  let regions := effective_regions m regionsField
  let per := regions.map
    (process_region m cache compartment_ids namespace_ query start_time end_time resolution)
  let results := (per.map Prod.fst).flatten
  let errors := (per.map Prod.snd).flatten
  { results := results
    errors := errors
    metadata :=
      { total_regions := regions.length
        total_compartments := compartment_ids.length
        total_queries := regions.length * compartment_ids.length
        successful_queries := results.length
        failed_queries := errors.length } }

/-- The four authentication types of `AuthType` (app.py lines 33-38). -/
inductive AuthType where
  | CONFIG_FILE
  | INSTANCE_PRINCIPAL
  | RESOURCE_PRINCIPAL
  | SECURITY_TOKEN
deriving DecidableEq

/-- An OCI private key; only its identity matters to the model. -/
structure PrivateKey where
  pem : String
deriving DecidableEq

/-- A principal signer produced by the SDK (instance or resource
principal). -/
structure PrincipalSigner where
  region : String
deriving DecidableEq

/-- The signer returned by `get_signer`. -/
inductive Signer where
  | instancePrincipal (s : PrincipalSigner)
  | resourcePrincipal (s : PrincipalSigner)
  | securityToken (token : String) (key : PrivateKey)
deriving DecidableEq

/-- The parsed OCI config dict; absent keys are `none`. -/
structure OCIConfig where
  region : Option String
  tenancy : Option String
  security_token_file : Option String
  key_file : Option String
deriving DecidableEq

/-- The environment read by `get_signer`: config parsing, the file system
and the SDK signer constructors.  `Except.error` models a raised
exception. -/
structure AuthEnv where
  from_file : String → String → Except String OCIConfig
  expanduser : String → String
  path_exists : String → Bool
  read_file : String → Except String String
  load_private_key_from_file : String → Except String PrivateKey
  instance_principal_signer : Except String PrincipalSigner
  resource_principal_signer : Except String PrincipalSigner

/-- `get_signer` (app.py lines 69-112).  In `SECURITY_TOKEN` mode the code
checks only that the config's `security_token_file` entry is truthy and the
token file exists; when it does, the private key is loaded unconditionally
(`expanduser(None)` on an absent `key_file` raises `TypeError`, and a
missing key file raises inside `load_private_key_from_file`).  Only a
falsy or nonexistent token file reaches the config-file fallback, which
re-parses the config file. -/
def get_signer (env : AuthEnv) (auth_type : AuthType) (config_file profile : String) :
    Except String (OCIConfig × Option Signer) :=
  match auth_type with
  | .INSTANCE_PRINCIPAL =>
      match env.instance_principal_signer with
      | .error e => .error e
      | .ok signer =>
          .ok ({ region := some signer.region, tenancy := none,
                 security_token_file := none, key_file := none },
               some (.instancePrincipal signer))
  | .RESOURCE_PRINCIPAL =>
      match env.resource_principal_signer with
      | .error e => .error e
      | .ok signer =>
          .ok ({ region := some signer.region, tenancy := none,
                 security_token_file := none, key_file := none },
               some (.resourcePrincipal signer))
  | .SECURITY_TOKEN =>
      match env.from_file config_file profile with
      | .error e => .error e
      | .ok config =>
          match config.security_token_file with
          | some token_file =>
              if token_file != "" && env.path_exists (env.expanduser token_file) then
                match env.read_file (env.expanduser token_file) with
                | .error e => .error e
                | .ok contents =>
                    let token := pyStrip contents
                    match config.key_file with
                    | none =>
                        .error "TypeError: expanduser argument is None"
                    | some key_file =>
                        match env.load_private_key_from_file (env.expanduser key_file) with
                        | .error e => .error e
                        | .ok private_key =>
                            .ok (config, some (.securityToken token private_key))
              else
                match env.from_file config_file profile with
                | .error e => .error e
                | .ok cfg => .ok (cfg, none)
          | none =>
              match env.from_file config_file profile with
              | .error e => .error e
              | .ok cfg => .ok (cfg, none)
  | .CONFIG_FILE =>
      match env.from_file config_file profile with
      | .error e => .error e
      | .ok cfg => .ok (cfg, none)

/-- An SDK compartment summary: its id, display name, and the id of its
parent compartment (`compartment_id`). -/
structure Compartment where
  id : String
  name : String
  compartment_id : String
deriving DecidableEq

/-- The `compartment_map` dict of `list_compartments` (app.py lines
239-242): tenancy id first, then every listed compartment, later
assignments overwriting earlier ones. -/
def compartment_map (tenancy_id tenancy_name : String)
    (all_compartments : List Compartment) (cid : String) : Option String :=
  match (all_compartments.filter (fun c => c.id == cid)).getLast? with
  | some c => some c.name
  | none => if cid = tenancy_id then some tenancy_name else none

/-- The inner `get_path` of `list_compartments` (app.py lines 245-255),
with the shared mutable `visited` set made explicit.  Recursion is bounded
by a fuel parameter; the fuel-exhausted branch returns the same expression
as the visited-set hit, and `list_compartments` supplies
`all_compartments.length + 2` fuel, which the visited-set discipline of the
source makes unreachable (each recursive step moves one listed compartment
id into `visited`). -/
def get_path (tenancy_id tenancy_name : String) (all_compartments : List Compartment) :
    Nat → String → List String → String
  | 0, comp_id, _ =>
      (compartment_map tenancy_id tenancy_name all_compartments comp_id).getD "Unknown"
  | fuel + 1, comp_id, visited =>
      if comp_id ∈ visited then
        (compartment_map tenancy_id tenancy_name all_compartments comp_id).getD "Unknown"
      else
        match all_compartments.find? (fun c => c.id == comp_id) with
        | none =>
            tenancy_name ++ "/" ++
              (compartment_map tenancy_id tenancy_name all_compartments comp_id).getD "Unknown"
        | some comp =>
            if comp.compartment_id == tenancy_id then
              tenancy_name ++ "/" ++
                (compartment_map tenancy_id tenancy_name all_compartments comp_id).getD "Unknown"
            else
              get_path tenancy_id tenancy_name all_compartments fuel
                comp.compartment_id (comp_id :: visited) ++ "/" ++ comp.name

/-- `OCIMonitoringClient.list_compartments` (app.py lines 212-268) given the
tenancy returned by `get_tenancy` and the paginated compartment listing:
the root entry with suffix `" (root)"`, one entry per compartment with its
computed path, sorted by path. -/
def list_compartments (tenancy_id tenancy_name : String)
    (all_compartments : List Compartment) : List CompartmentEntry :=
  let root : CompartmentEntry :=
    { id := tenancy_id, name := tenancy_name, path := tenancy_name ++ " (root)" }
  let entries := root :: all_compartments.map (fun comp =>
    { id := comp.id, name := comp.name,
      path := get_path tenancy_id tenancy_name all_compartments
        (all_compartments.length + 2) comp.id [] })
  pySort (fun a b => pyStrLe a.path b.path) entries

/-- A parent chain witnessing that a compartment reaches the tenancy root:
`Chain tid comps c (c :: rest)` states that following `compartment_id`
links from `c` through the listed compartments ends at a compartment whose
parent is the tenancy. -/
inductive Chain (tenancy_id : String) (comps : List Compartment) :
    Compartment → List Compartment → Prop where
  | base (c : Compartment) (hc : c ∈ comps) (hp : c.compartment_id = tenancy_id) :
      Chain tenancy_id comps c [c]
  | step (c p : Compartment) (rest : List Compartment) (hc : c ∈ comps)
      (hp : c.compartment_id = p.id) (hch : Chain tenancy_id comps p (p :: rest)) :
      Chain tenancy_id comps c (c :: p :: rest)

/-- An SDK metric summary row from the `list_metrics` pagination. -/
structure Metric where
  name : String
  namespace_ : String
  dimensions : List (String × String)
  resource_group : Option String
deriving DecidableEq

/-- The per-name accumulator dict value of `list_metrics` (app.py lines
322-333); `dimensions` is the Python set, modelled as a duplicate-free
list in insertion order. -/
structure MetricAccum where
  name : String
  namespace_ : String
  dimensions : List String
  resource_group : Option String
deriving DecidableEq

/-- One entry of the `list_metrics` JSON result. -/
structure MetricEntry where
  name : String
  namespace_ : String
  dimensions : List String
  resource_group : Option String
deriving DecidableEq

/-- Python `set.add`: append when not already present. -/
def setInsert (s : List String) (k : String) : List String :=
  if k ∈ s then s else s ++ [k]

/-- Python `set.update` with an iterable of keys. -/
def setUpdate (s : List String) (ks : List String) : List String :=
  ks.foldl setInsert s

/-- `metrics[metric.name]["dimensions"].update(metric.dimensions.keys())`
(app.py lines 331-333) as an association-list update: only the entry keyed
by the metric's name changes. -/
def update_dims (m : Metric) (kv : String × MetricAccum) : String × MetricAccum :=
  if kv.1 = m.name then
    (kv.1, { kv.2 with dimensions := setUpdate kv.2.dimensions (m.dimensions.map Prod.fst) })
  else kv

/-- The body of the `for metric in response` loop of `list_metrics`
(app.py lines 323-333) over the insertion-ordered dict, modelled as an
association list keyed by metric name: insert a fresh entry when the name
is new, then merge the metric's dimension keys into its entry. -/
def list_metrics_step (acc : List (String × MetricAccum)) (m : Metric) :
    List (String × MetricAccum) :=
  let acc : List (String × MetricAccum) :=
    match acc.lookup m.name with
    | some _ => acc
    | none => acc ++ [(m.name,
        { name := m.name, namespace_ := m.namespace_, dimensions := [],
          resource_group := m.resource_group })]
  acc.map (update_dims m)

/-- `OCIMonitoringClient.list_metrics` (app.py lines 297-349) given the
paginated response: deduplicate by name merging dimension-key sets, convert
each set to a sorted list, and sort the entries by name. -/
def list_metrics (response : List Metric) : List MetricEntry :=
  let metrics := response.foldl list_metrics_step []
  let result : List MetricEntry := metrics.map (fun kv =>
    { name := kv.2.name, namespace_ := kv.2.namespace_,
      dimensions := pySort pyStrLe kv.2.dimensions,
      resource_group := kv.2.resource_group })
  pySort (fun a b => pyStrLe a.name b.name) result

/-- Python `s.endswith(suffix)`. -/
def pyEndsWith (s suffix_ : String) : Bool :=
  suffix_.data.isSuffixOf s.data

/-- CPython `str.replace`: scan left to right, replacing each non-overlapping
occurrence of the pattern.  Fuel is the scanned list's length; with a
nonempty pattern each step consumes at least one character, so the
fuel-exhausted branch is unreachable. -/
def pyReplaceAux (p r : List Char) : Nat → List Char → List Char
  | _, [] => []
  | 0, s => s
  | fuel + 1, c :: cs =>
      if p.isPrefixOf (c :: cs) then r ++ pyReplaceAux p r fuel ((c :: cs).drop p.length)
      else c :: pyReplaceAux p r fuel cs

/-- Python `s.replace(pat, rep)`. -/
def pyReplace (s pat rep : String) : String :=
  ⟨pyReplaceAux pat.data rep.data s.data.length s.data⟩

/-- Python `s.split(sep)` for a nonempty separator: cut at every
non-overlapping occurrence, scanning left to right. -/
def pySplitAux (p : List Char) : Nat → List Char → List (List Char)
  | _, [] => [[]]
  | 0, s => [s]
  | fuel + 1, c :: cs =>
      if p.isPrefixOf (c :: cs) then [] :: pySplitAux p fuel ((c :: cs).drop p.length)
      else
        match pySplitAux p fuel cs with
        | [] => [[c]]
        | x :: xs => (c :: x) :: xs

/-- Python `s.split(sep)` on strings. -/
def pySplit (s pat : String) : List String :=
  (pySplitAux pat.data s.data.length s.data).map (fun l => ⟨l⟩)

/-- generate_report.py lines 620-626: the path the report is written to —
in `--json` mode an output path ending in `.html` has every occurrence of
`.html` replaced by `.json`, every other case uses the path as given. -/
def main_output_file (json_flag : Bool) (output : String) : String :=
  if json_flag then
    if pyEndsWith output ".html" then pyReplace output ".html" ".json" else output
  else output

/-- `pyJoin` at the character-list level, for relating `pyReplace` to
`pySplit`. -/
def pyJoinChars (r : List Char) : List (List Char) → List Char
  | [] => []
  | [x] => x
  | x :: y :: xs => x ++ r ++ pyJoinChars r (y :: xs)

theorem charListLe_total : ∀ as bs : List Char, charListLe as bs = true ∨ charListLe bs as = true
  | [], _ => Or.inl rfl
  | _ :: _, [] => Or.inr rfl
  | a :: as, b :: bs => by
      by_cases hab : a = b
      · subst hab
        simpa [charListLe] using charListLe_total as bs
      · have hba : ¬b = a := fun h => hab h.symm
        rcases lt_or_gt_of_ne hab with h | h
        · exact Or.inl (by simp [charListLe, hab, h])
        · exact Or.inr (by simp [charListLe, hba, h])

theorem charListLe_trans :
    ∀ as bs cs : List Char, charListLe as bs = true → charListLe bs cs = true →
      charListLe as cs = true
  | [], _, _, _, _ => rfl
  | _ :: _, [], _, h, _ => by simp [charListLe] at h
  | _ :: _, _ :: _, [], _, h => by simp [charListLe] at h
  | a :: as, b :: bs, c :: cs, h1, h2 => by
      simp only [charListLe] at h1 h2 ⊢
      by_cases hab : a = b
      · subst hab
        by_cases hac : a = c
        · subst hac
          rw [if_pos rfl] at h1 h2 ⊢
          exact charListLe_trans as bs cs h1 h2
        · rw [if_pos rfl] at h1
          rw [if_neg hac] at h2 ⊢
          exact h2
      · by_cases hbc : b = c
        · subst hbc
          rw [if_neg hab] at h1 ⊢
          exact h1
        · rw [if_neg hab] at h1
          rw [if_neg hbc] at h2
          have hac : a < c := lt_trans (of_decide_eq_true h1) (of_decide_eq_true h2)
          rw [if_neg (ne_of_lt hac)]
          exact decide_eq_true hac

theorem pyStrLe_total (a b : String) : pyStrLe a b = true ∨ pyStrLe b a = true :=
  charListLe_total a.data b.data

theorem pyStrLe_trans (a b c : String) (h1 : pyStrLe a b = true) (h2 : pyStrLe b c = true) :
    pyStrLe a c = true :=
  charListLe_trans a.data b.data c.data h1 h2

theorem sorted_pySort (le : α → α → Bool)
    (htot : ∀ a b, le a b = true ∨ le b a = true)
    (htrans : ∀ a b c, le a b = true → le b c = true → le a c = true)
    (l : List α) : List.Sorted (fun a b => le a b = true) (pySort le l) := by
  haveI : IsTotal α (fun a b => le a b = true) := ⟨htot⟩
  haveI : IsTrans α (fun a b => le a b = true) := ⟨fun a b c => htrans a b c⟩
  exact List.sorted_insertionSort _ l

theorem perm_pySort (le : α → α → Bool) (l : List α) : List.Perm (pySort le l) l :=
  List.perm_insertionSort _ l

theorem mem_pySort {le : α → α → Bool} {l : List α} {x : α} : x ∈ pySort le l ↔ x ∈ l :=
  (perm_pySort le l).mem_iff

theorem length_filterMap_left_add_right (l : List (Sum α β)) :
    (l.filterMap Sum.getLeft?).length + (l.filterMap Sum.getRight?).length = l.length := by
  induction l with
  | nil => rfl
  | cons x xs ih =>
      cases x with
      | inl a =>
          simp only [List.filterMap_cons, Sum.getLeft?, Sum.getRight?, List.length_cons]
          omega
      | inr b =>
          simp only [List.filterMap_cons, Sum.getLeft?, Sum.getRight?, List.length_cons]
          omega

theorem length_flatten_map (f : α → List β) (l : List α) :
    ((l.map f).flatten).length = (l.map (fun x => (f x).length)).sum := by
  induction l with
  | nil => rfl
  | cons x xs ih => simp [ih]

theorem sum_map_add_nat (f g : α → Nat) (l : List α) :
    (l.map f).sum + (l.map g).sum = (l.map (fun x => f x + g x)).sum := by
  induction l with
  | nil => rfl
  | cons x xs ih =>
      simp only [List.map_cons, List.sum_cons]
      omega

theorem sum_map_const_nat (l : List α) (c : Nat) :
    (l.map (fun _ => c)).sum = l.length * c := by
  induction l with
  | nil => simp
  | cons x xs ih =>
      simp only [List.map_cons, List.sum_cons, List.length_cons, ih]
      ring

theorem process_region_lengths (m : RegionManager) (cache : List (String × CompartmentEntry))
    (comps : List String) (ns q : String) (st et : DateTime) (reso : Option String)
    (region : String) :
    (process_region m cache comps ns q st et reso region).1.length +
      (process_region m cache comps ns q st et reso region).2.length = comps.length := by
  unfold process_region
  cases m.get_client region with
  | error e => simp
  | ok client =>
      simpa using length_filterMap_left_add_right
        (comps.map (query_one cache client ns q st et reso region))

/-- C1: for every unified query request with N regions (after filtering
blank entries and defaulting) and a non-empty list of M compartment ids,
`api_query_unified` attempts exactly one query per (region, compartment)
pair: the response metadata has `total_queries = N * M`,
`successful_queries + failed_queries = total_queries`, and the two counts
are the lengths of the `results` and `errors` lists. -/
theorem api_query_unified_query_counts (m : RegionManager)
    (cache : List (String × CompartmentEntry))
    (regionsField : Option (List (Option String))) (compartment_ids : List String)
    (ns q : String) (st et : DateTime) (reso : Option String)
    (hM : compartment_ids ≠ []) :
    (api_query_unified m cache regionsField compartment_ids ns q st et reso).metadata.total_queries
        = (effective_regions m regionsField).length * compartment_ids.length ∧
    (api_query_unified m cache regionsField compartment_ids ns q st et reso).metadata.successful_queries
        + (api_query_unified m cache regionsField compartment_ids ns q st et reso).metadata.failed_queries
        = (api_query_unified m cache regionsField compartment_ids ns q st et reso).metadata.total_queries ∧
    (api_query_unified m cache regionsField compartment_ids ns q st et reso).metadata.successful_queries
        = (api_query_unified m cache regionsField compartment_ids ns q st et reso).results.length ∧
    (api_query_unified m cache regionsField compartment_ids ns q st et reso).metadata.failed_queries
        = (api_query_unified m cache regionsField compartment_ids ns q st et reso).errors.length := by
  refine ⟨rfl, ?_, rfl, rfl⟩
  show ((((effective_regions m regionsField).map
        (process_region m cache compartment_ids ns q st et reso)).map Prod.fst).flatten).length
      + ((((effective_regions m regionsField).map
        (process_region m cache compartment_ids ns q st et reso)).map Prod.snd).flatten).length
      = (effective_regions m regionsField).length * compartment_ids.length
  rw [List.map_map, List.map_map, length_flatten_map, length_flatten_map, sum_map_add_nat]
  have hcongr : (effective_regions m regionsField).map
      (fun x => ((Prod.fst ∘ process_region m cache compartment_ids ns q st et reso) x).length
        + ((Prod.snd ∘ process_region m cache compartment_ids ns q st et reso) x).length)
      = (effective_regions m regionsField).map (fun _ => compartment_ids.length) :=
    List.map_congr_left (fun r _ => by
      simpa using process_region_lengths m cache compartment_ids ns q st et reso r)
  rw [hcongr, sum_map_const_nat]

theorem api_query_unified_query_counts_witness :
    (["c1", "c2", "c3"] : List String) ≠ [] ∧
    ((api_query_unified
        ⟨"us-ashburn-1",
          fun r => if r == "badregion" then .error "ServiceError" else .ok ⟨fun _ _ => .ok []⟩,
          .ok []⟩
        [] (some [some "us-ashburn-1", some "badregion"]) ["c1", "c2", "c3"]
        "oci_computeagent" "CpuUtilization[1h].mean()"
        ⟨2024, 1, 1, 0, 0, 0, 0, none⟩ ⟨2024, 1, 2, 0, 0, 0, 0, none⟩ none).metadata.total_queries
        = (effective_regions
            ⟨"us-ashburn-1",
              fun r => if r == "badregion" then .error "ServiceError" else .ok ⟨fun _ _ => .ok []⟩,
              .ok []⟩
            (some [some "us-ashburn-1", some "badregion"])).length * (["c1", "c2", "c3"] : List String).length ∧
      (api_query_unified
        ⟨"us-ashburn-1",
          fun r => if r == "badregion" then .error "ServiceError" else .ok ⟨fun _ _ => .ok []⟩,
          .ok []⟩
        [] (some [some "us-ashburn-1", some "badregion"]) ["c1", "c2", "c3"]
        "oci_computeagent" "CpuUtilization[1h].mean()"
        ⟨2024, 1, 1, 0, 0, 0, 0, none⟩ ⟨2024, 1, 2, 0, 0, 0, 0, none⟩ none).metadata.successful_queries
        + (api_query_unified
        ⟨"us-ashburn-1",
          fun r => if r == "badregion" then .error "ServiceError" else .ok ⟨fun _ _ => .ok []⟩,
          .ok []⟩
        [] (some [some "us-ashburn-1", some "badregion"]) ["c1", "c2", "c3"]
        "oci_computeagent" "CpuUtilization[1h].mean()"
        ⟨2024, 1, 1, 0, 0, 0, 0, none⟩ ⟨2024, 1, 2, 0, 0, 0, 0, none⟩ none).metadata.failed_queries
        = (api_query_unified
        ⟨"us-ashburn-1",
          fun r => if r == "badregion" then .error "ServiceError" else .ok ⟨fun _ _ => .ok []⟩,
          .ok []⟩
        [] (some [some "us-ashburn-1", some "badregion"]) ["c1", "c2", "c3"]
        "oci_computeagent" "CpuUtilization[1h].mean()"
        ⟨2024, 1, 1, 0, 0, 0, 0, none⟩ ⟨2024, 1, 2, 0, 0, 0, 0, none⟩ none).metadata.total_queries ∧
      (api_query_unified
        ⟨"us-ashburn-1",
          fun r => if r == "badregion" then .error "ServiceError" else .ok ⟨fun _ _ => .ok []⟩,
          .ok []⟩
        [] (some [some "us-ashburn-1", some "badregion"]) ["c1", "c2", "c3"]
        "oci_computeagent" "CpuUtilization[1h].mean()"
        ⟨2024, 1, 1, 0, 0, 0, 0, none⟩ ⟨2024, 1, 2, 0, 0, 0, 0, none⟩ none).metadata.successful_queries
        = (api_query_unified
        ⟨"us-ashburn-1",
          fun r => if r == "badregion" then .error "ServiceError" else .ok ⟨fun _ _ => .ok []⟩,
          .ok []⟩
        [] (some [some "us-ashburn-1", some "badregion"]) ["c1", "c2", "c3"]
        "oci_computeagent" "CpuUtilization[1h].mean()"
        ⟨2024, 1, 1, 0, 0, 0, 0, none⟩ ⟨2024, 1, 2, 0, 0, 0, 0, none⟩ none).results.length ∧
      (api_query_unified
        ⟨"us-ashburn-1",
          fun r => if r == "badregion" then .error "ServiceError" else .ok ⟨fun _ _ => .ok []⟩,
          .ok []⟩
        [] (some [some "us-ashburn-1", some "badregion"]) ["c1", "c2", "c3"]
        "oci_computeagent" "CpuUtilization[1h].mean()"
        ⟨2024, 1, 1, 0, 0, 0, 0, none⟩ ⟨2024, 1, 2, 0, 0, 0, 0, none⟩ none).metadata.failed_queries
        = (api_query_unified
        ⟨"us-ashburn-1",
          fun r => if r == "badregion" then .error "ServiceError" else .ok ⟨fun _ _ => .ok []⟩,
          .ok []⟩
        [] (some [some "us-ashburn-1", some "badregion"]) ["c1", "c2", "c3"]
        "oci_computeagent" "CpuUtilization[1h].mean()"
        ⟨2024, 1, 1, 0, 0, 0, 0, none⟩ ⟨2024, 1, 2, 0, 0, 0, 0, none⟩ none).errors.length) :=
  ⟨by decide,
   api_query_unified_query_counts _ _ _ _ _ _ _ _ _ (by decide)⟩

theorem filterMap_blank_regions_nil :
    ∀ l : List (Option String), (∀ r ∈ l, r = none ∨ r = some "") →
      l.filterMap (fun r => match r with
        | none => none
        | some s => if s = "" then none else some s) = []
  | [], _ => rfl
  | r :: rs, h => by
      rcases h r (List.mem_cons_self r rs) with hr | hr <;> subst hr <;>
        simpa using filterMap_blank_regions_nil rs
          (fun x hx => h x (List.mem_cons_of_mem _ hx))

/-- C6: a unified request whose `regions` field is absent, empty, or made
only of blank/`null` entries fans out over exactly the manager's default
region. -/
theorem effective_regions_defaults (m : RegionManager)
    (regionsField : Option (List (Option String)))
    (h : ∀ r ∈ regionsField.getD [], r = none ∨ r = some "") :
    effective_regions m regionsField = [m.default_region] ∧
    ∀ (cache : List (String × CompartmentEntry)) (compartment_ids : List String)
      (ns q : String) (st et : DateTime) (reso : Option String),
      (api_query_unified m cache regionsField compartment_ids ns q st et reso).metadata.total_regions
        = 1 := by
  have heff : effective_regions m regionsField = [m.default_region] := by
    unfold effective_regions
    rw [filterMap_blank_regions_nil _ h]
    rfl
  refine ⟨heff, fun cache compartment_ids ns q st et reso => ?_⟩
  show (effective_regions m regionsField).length = 1
  rw [heff]
  rfl

theorem effective_regions_defaults_witness :
    (∀ r ∈ ((some [none, some ""] : Option (List (Option String))).getD []),
      r = none ∨ r = some "") ∧
    effective_regions ⟨"us-ashburn-1", fun _ => .error "x", .ok []⟩ (some [none, some ""])
      = ["us-ashburn-1"] ∧
    (api_query_unified ⟨"us-ashburn-1", fun _ => .error "x", .ok []⟩ [] (some [none, some ""])
      ["c1"] "ns" "q" ⟨2024, 1, 1, 0, 0, 0, 0, none⟩ ⟨2024, 1, 2, 0, 0, 0, 0, none⟩
      none).metadata.total_regions = 1 :=
  ⟨by decide,
   (effective_regions_defaults ⟨"us-ashburn-1", fun _ => .error "x", .ok []⟩
      (some [none, some ""]) (by decide)).1,
   (effective_regions_defaults ⟨"us-ashburn-1", fun _ => .error "x", .ok []⟩
      (some [none, some ""]) (by decide)).2 [] ["c1"] "ns" "q"
      ⟨2024, 1, 1, 0, 0, 0, 0, none⟩ ⟨2024, 1, 2, 0, 0, 0, 0, none⟩ none⟩

/-- C8: whenever listing region subscriptions raises,
`get_available_regions` returns exactly the one-element list holding the
manager's default region; being a total function of the recorded outcome,
it never propagates the failure. -/
theorem get_available_regions_fallback (m : RegionManager) (e : String)
    (h : m.list_region_subscriptions = .error e) :
    get_available_regions m = [m.default_region] := by
  unfold get_available_regions
  rw [h]

theorem get_available_regions_fallback_witness :
    get_available_regions ⟨"eu-frankfurt-1", fun _ => .error "x", .error "ServiceError: 500"⟩
      = ["eu-frankfurt-1"] :=
  get_available_regions_fallback
    ⟨"eu-frankfurt-1", fun _ => .error "x", .error "ServiceError: 500"⟩ "ServiceError: 500" rfl

theorem query_one_inr_region (cache : List (String × CompartmentEntry))
    (client : MonitoringClient) (ns q : String) (st et : DateTime) (reso : Option String)
    (region cid : String) (err : UnifiedError)
    (h : query_one cache client ns q st et reso region cid = .inr err) :
    err.region = region := by
  unfold query_one at h
  cases hq : query_metrics client cid ns q st et reso with
  | ok result => rw [hq] at h; exact absurd h (by simp)
  | error e =>
      rw [hq] at h
      have := Sum.inr.inj h
      rw [← this]

theorem mem_process_region_errors_region (m : RegionManager)
    (cache : List (String × CompartmentEntry)) (comps : List String) (ns q : String)
    (st et : DateTime) (reso : Option String) (region : String) (err : UnifiedError)
    (h : err ∈ (process_region m cache comps ns q st et reso region).2) :
    err.region = region := by
  unfold process_region at h
  cases hc : m.get_client region with
  | error e =>
      rw [hc] at h
      simp only [List.mem_map] at h
      obtain ⟨cid, _, hcid⟩ := h
      rw [← hcid]
      rfl
  | ok client =>
      rw [hc] at h
      simp only [List.mem_filterMap, List.mem_map] at h
      obtain ⟨o, ⟨cid, _, ho⟩, hget⟩ := h
      cases o with
      | inl res => exact absurd hget (by simp [Sum.getRight?])
      | inr err' =>
          have herr : err' = err := by simpa [Sum.getRight?] using hget
          subst herr
          exact query_one_inr_region cache client ns q st et reso region cid err' ho

theorem process_region_failure (m : RegionManager)
    (cache : List (String × CompartmentEntry)) (comps : List String) (ns q : String)
    (st et : DateTime) (reso : Option String) (region e : String)
    (h : m.get_client region = .error e) :
    process_region m cache comps ns q st et reso region
      = ([], comps.map (connection_error region e)) := by
  unfold process_region
  rw [h]

theorem mem_flatten_map_snd {α β γ : Type _} (F : α → List β × List γ) (rs : List α)
    (err : γ) (h : err ∈ ((rs.map F).map Prod.snd).flatten) :
    ∃ region ∈ rs, err ∈ (F region).2 := by
  simp only [List.mem_flatten, List.mem_map] at h
  obtain ⟨l, ⟨pr, ⟨region, hregion, hFr⟩, hl⟩, hmem⟩ := h
  exact ⟨region, hregion, by rw [hFr, hl]; exact hmem⟩

/-- C7: in a unified query over a region list containing `r` once, if the
client for `r` cannot be obtained, the errors list contains exactly one
entry per compartment id for `r` — each the connection-error record tagged
with `r` — and the results and the other regions' errors are exactly those
of processing the remaining regions. -/
theorem api_query_unified_region_failure (m : RegionManager)
    (cache : List (String × CompartmentEntry))
    (regionsField : Option (List (Option String))) (comps : List String)
    (ns q : String) (st et : DateTime) (reso : Option String)
    (pre post : List String) (r e : String)
    (hreg : effective_regions m regionsField = pre ++ r :: post)
    (hfail : m.get_client r = .error e)
    (hpre : r ∉ pre) (hpost : r ∉ post) :
    ((api_query_unified m cache regionsField comps ns q st et reso).errors.filter
        (fun err => err.region == r) = comps.map (connection_error r e)) ∧
    (((api_query_unified m cache regionsField comps ns q st et reso).errors.filter
        (fun err => err.region == r)).length = comps.length) ∧
    ((api_query_unified m cache regionsField comps ns q st et reso).errors
        = (((pre.map (process_region m cache comps ns q st et reso)).map Prod.snd).flatten
            ++ (comps.map (connection_error r e)
            ++ ((post.map (process_region m cache comps ns q st et reso)).map Prod.snd).flatten))) ∧
    ((api_query_unified m cache regionsField comps ns q st et reso).results
        = (((pre.map (process_region m cache comps ns q st et reso)).map Prod.fst).flatten
            ++ ((post.map (process_region m cache comps ns q st et reso)).map Prod.fst).flatten)) := by
  have herrs : (api_query_unified m cache regionsField comps ns q st et reso).errors
      = (((pre.map (process_region m cache comps ns q st et reso)).map Prod.snd).flatten
          ++ (comps.map (connection_error r e)
          ++ ((post.map (process_region m cache comps ns q st et reso)).map Prod.snd).flatten)) := by
    show ((((effective_regions m regionsField).map
        (process_region m cache comps ns q st et reso)).map Prod.snd).flatten) = _
    rw [hreg]
    simp [process_region_failure m cache comps ns q st et reso r e hfail]
  have hress : (api_query_unified m cache regionsField comps ns q st et reso).results
      = (((pre.map (process_region m cache comps ns q st et reso)).map Prod.fst).flatten
          ++ ((post.map (process_region m cache comps ns q st et reso)).map Prod.fst).flatten) := by
    show ((((effective_regions m regionsField).map
        (process_region m cache comps ns q st et reso)).map Prod.fst).flatten) = _
    rw [hreg]
    simp [process_region_failure m cache comps ns q st et reso r e hfail]
  have hfilter_pre :
      (((pre.map (process_region m cache comps ns q st et reso)).map Prod.snd).flatten).filter
        (fun err => err.region == r) = [] := by
    rw [List.filter_eq_nil_iff]
    intro a ha
    obtain ⟨region, hregion, hmem⟩ :=
      mem_flatten_map_snd (process_region m cache comps ns q st et reso) pre a ha
    have := mem_process_region_errors_region m cache comps ns q st et reso region a hmem
    simp only [beq_iff_eq, this]
    exact fun hc => hpre (hc ▸ hregion)
  have hfilter_post :
      (((post.map (process_region m cache comps ns q st et reso)).map Prod.snd).flatten).filter
        (fun err => err.region == r) = [] := by
    rw [List.filter_eq_nil_iff]
    intro a ha
    obtain ⟨region, hregion, hmem⟩ :=
      mem_flatten_map_snd (process_region m cache comps ns q st et reso) post a ha
    have := mem_process_region_errors_region m cache comps ns q st et reso region a hmem
    simp only [beq_iff_eq, this]
    exact fun hc => hpost (hc ▸ hregion)
  have hfilter_mid : (comps.map (connection_error r e)).filter (fun err => err.region == r)
      = comps.map (connection_error r e) := by
    rw [List.filter_eq_self]
    intro a ha
    obtain ⟨cid, _, hcid⟩ := List.mem_map.mp ha
    rw [← hcid]
    simp [connection_error]
  have hfilter : (api_query_unified m cache regionsField comps ns q st et reso).errors.filter
      (fun err => err.region == r) = comps.map (connection_error r e) := by
    rw [herrs, List.filter_append, List.filter_append, hfilter_pre, hfilter_mid, hfilter_post]
    simp
  exact ⟨hfilter, by rw [hfilter]; exact List.length_map comps _, herrs, hress⟩

theorem api_query_unified_region_failure_witness :
    ((api_query_unified
        ⟨"us-ashburn-1",
          fun r => if r == "badregion" then .error "boom" else .ok ⟨fun _ _ => .ok []⟩, .ok []⟩
        [] (some [some "us-ashburn-1", some "badregion", some "eu-frankfurt-1"]) ["c1", "c2"]
        "ns" "q" ⟨2024, 1, 1, 0, 0, 0, 0, none⟩ ⟨2024, 1, 2, 0, 0, 0, 0, none⟩ none).errors.filter
        (fun err => err.region == "badregion")
        = ["c1", "c2"].map (connection_error "badregion" "boom")) ∧
    (((api_query_unified
        ⟨"us-ashburn-1",
          fun r => if r == "badregion" then .error "boom" else .ok ⟨fun _ _ => .ok []⟩, .ok []⟩
        [] (some [some "us-ashburn-1", some "badregion", some "eu-frankfurt-1"]) ["c1", "c2"]
        "ns" "q" ⟨2024, 1, 1, 0, 0, 0, 0, none⟩ ⟨2024, 1, 2, 0, 0, 0, 0, none⟩ none).errors.filter
        (fun err => err.region == "badregion")).length = (["c1", "c2"] : List String).length) ∧
    ((api_query_unified
        ⟨"us-ashburn-1",
          fun r => if r == "badregion" then .error "boom" else .ok ⟨fun _ _ => .ok []⟩, .ok []⟩
        [] (some [some "us-ashburn-1", some "badregion", some "eu-frankfurt-1"]) ["c1", "c2"]
        "ns" "q" ⟨2024, 1, 1, 0, 0, 0, 0, none⟩ ⟨2024, 1, 2, 0, 0, 0, 0, none⟩ none).errors
        = (((["us-ashburn-1"].map (process_region
              ⟨"us-ashburn-1",
                fun r => if r == "badregion" then .error "boom" else .ok ⟨fun _ _ => .ok []⟩,
                .ok []⟩
              [] ["c1", "c2"] "ns" "q" ⟨2024, 1, 1, 0, 0, 0, 0, none⟩
              ⟨2024, 1, 2, 0, 0, 0, 0, none⟩ none)).map Prod.snd).flatten
            ++ (["c1", "c2"].map (connection_error "badregion" "boom")
            ++ ((["eu-frankfurt-1"].map (process_region
              ⟨"us-ashburn-1",
                fun r => if r == "badregion" then .error "boom" else .ok ⟨fun _ _ => .ok []⟩,
                .ok []⟩
              [] ["c1", "c2"] "ns" "q" ⟨2024, 1, 1, 0, 0, 0, 0, none⟩
              ⟨2024, 1, 2, 0, 0, 0, 0, none⟩ none)).map Prod.snd).flatten))) ∧
    ((api_query_unified
        ⟨"us-ashburn-1",
          fun r => if r == "badregion" then .error "boom" else .ok ⟨fun _ _ => .ok []⟩, .ok []⟩
        [] (some [some "us-ashburn-1", some "badregion", some "eu-frankfurt-1"]) ["c1", "c2"]
        "ns" "q" ⟨2024, 1, 1, 0, 0, 0, 0, none⟩ ⟨2024, 1, 2, 0, 0, 0, 0, none⟩ none).results
        = (((["us-ashburn-1"].map (process_region
              ⟨"us-ashburn-1",
                fun r => if r == "badregion" then .error "boom" else .ok ⟨fun _ _ => .ok []⟩,
                .ok []⟩
              [] ["c1", "c2"] "ns" "q" ⟨2024, 1, 1, 0, 0, 0, 0, none⟩
              ⟨2024, 1, 2, 0, 0, 0, 0, none⟩ none)).map Prod.fst).flatten
            ++ ((["eu-frankfurt-1"].map (process_region
              ⟨"us-ashburn-1",
                fun r => if r == "badregion" then .error "boom" else .ok ⟨fun _ _ => .ok []⟩,
                .ok []⟩
              [] ["c1", "c2"] "ns" "q" ⟨2024, 1, 1, 0, 0, 0, 0, none⟩
              ⟨2024, 1, 2, 0, 0, 0, 0, none⟩ none)).map Prod.fst).flatten)) :=
  api_query_unified_region_failure
    ⟨"us-ashburn-1",
      fun r => if r == "badregion" then .error "boom" else .ok ⟨fun _ _ => .ok []⟩, .ok []⟩
    [] (some [some "us-ashburn-1", some "badregion", some "eu-frankfurt-1"]) ["c1", "c2"]
    "ns" "q" ⟨2024, 1, 1, 0, 0, 0, 0, none⟩ ⟨2024, 1, 2, 0, 0, 0, 0, none⟩ none
    ["us-ashburn-1"] ["eu-frankfurt-1"] "badregion" "boom"
    (by decide) rfl (by decide) (by decide)

theorem mem_flatten_map_fst {α β γ : Type _} (F : α → List β × List γ) (rs : List α)
    (res : β) (h : res ∈ ((rs.map F).map Prod.fst).flatten) :
    ∃ region ∈ rs, res ∈ (F region).1 := by
  simp only [List.mem_flatten, List.mem_map] at h
  obtain ⟨l, ⟨pr, ⟨region, hregion, hFr⟩, hl⟩, hmem⟩ := h
  exact ⟨region, hregion, by rw [hFr, hl]; exact hmem⟩

theorem query_one_inl_shape (cache : List (String × CompartmentEntry))
    (client : MonitoringClient) (ns q : String) (st et : DateTime) (reso : Option String)
    (region cid : String) (res : UnifiedResult)
    (h : query_one cache client ns q st et reso region cid = .inl res) :
    res.region = region ∧ res.compartment_id = cid ∧
    res.compartment_name = get_compartment_name cache cid ∧
    ∃ qr : QueryResult, query_metrics client cid ns q st et reso = .ok qr ∧
      res.metric_data = qr.metric_data.map
        (enrich_series region cid (get_compartment_name cache cid)) := by
  unfold query_one at h
  cases hq : query_metrics client cid ns q st et reso with
  | error e => rw [hq] at h; exact absurd h (by simp)
  | ok qr =>
      rw [hq] at h
      have heq := Sum.inl.inj h
      exact ⟨by rw [← heq], by rw [← heq], by rw [← heq], qr, rfl, by rw [← heq]⟩

theorem mem_process_region_results (m : RegionManager)
    (cache : List (String × CompartmentEntry)) (comps : List String) (ns q : String)
    (st et : DateTime) (reso : Option String) (region : String) (res : UnifiedResult)
    (h : res ∈ (process_region m cache comps ns q st et reso region).1) :
    ∃ client, m.get_client region = .ok client ∧ ∃ cid ∈ comps,
      query_one cache client ns q st et reso region cid = .inl res := by
  unfold process_region at h
  cases hc : m.get_client region with
  | error e => rw [hc] at h; simp at h
  | ok client =>
      rw [hc] at h
      simp only [List.mem_filterMap, List.mem_map] at h
      obtain ⟨o, ⟨cid, hcid, ho⟩, hget⟩ := h
      cases o with
      | inr err => exact absurd hget (by simp [Sum.getLeft?])
      | inl res' =>
          have : res' = res := by simpa [Sum.getLeft?] using hget
          subst this
          exact ⟨client, rfl, cid, hcid, ho⟩

/-- C5: every series returned successfully by the unified endpoint carries
a label equal to its `short_label` (the original `query_metrics` label)
followed by ` [<region>] (<compartment_name>)`, where the compartment name
is the cached display name, or the raw compartment id when the id is not in
the cache. -/
theorem unified_series_labels (m : RegionManager)
    (cache : List (String × CompartmentEntry))
    (regionsField : Option (List (Option String))) (comps : List String)
    (ns q : String) (st et : DateTime) (reso : Option String) :
    ∀ res ∈ (api_query_unified m cache regionsField comps ns q st et reso).results,
      res.compartment_name = get_compartment_name cache res.compartment_id ∧
      (cache.lookup res.compartment_id = none → res.compartment_name = res.compartment_id) ∧
      (∀ entry, cache.lookup res.compartment_id = some entry →
        res.compartment_name = entry.name) ∧
      ∀ s ∈ res.metric_data,
        s.label = s.short_label ++ " [" ++ res.region ++ "] (" ++ res.compartment_name ++ ")" ∧
        ∃ s₀ : Series,
          s = enrich_series res.region res.compartment_id res.compartment_name s₀ ∧
          s.short_label = s₀.label := by
  intro res hres
  have hres' : res ∈ (((effective_regions m regionsField).map
      (process_region m cache comps ns q st et reso)).map Prod.fst).flatten := hres
  obtain ⟨region, _, hmem⟩ :=
    mem_flatten_map_fst (process_region m cache comps ns q st et reso)
      (effective_regions m regionsField) res hres'
  obtain ⟨client, _, cid, _, hone⟩ :=
    mem_process_region_results m cache comps ns q st et reso region res hmem
  obtain ⟨hreg, hcid, hname, qr, _, hmd⟩ :=
    query_one_inl_shape cache client ns q st et reso region cid res hone
  have hname' : res.compartment_name = get_compartment_name cache res.compartment_id := by
    rw [hname, hcid]
  refine ⟨hname', ?_, ?_, ?_⟩
  · intro hlook
    rw [hname']
    simp [get_compartment_name, hlook]
  · intro entry hlook
    rw [hname']
    simp [get_compartment_name, hlook]
  · intro s hs
    rw [hmd] at hs
    obtain ⟨s₀, _, hs₀⟩ := List.mem_map.mp hs
    refine ⟨?_, s₀, ?_, ?_⟩
    · rw [← hs₀]
      simp [enrich_series, hreg, hname, hcid]
    · rw [← hs₀, hreg, hcid, hname]
    · rw [← hs₀]
      rfl

theorem unified_series_labels_witness :
    (⟨"eu-frankfurt-1", "c1", "c1", "CpuUtilization[1h].mean()", "oci_computeagent",
        "2024-01-01T00:00:00", "2024-01-02T00:00:00",
        [⟨"CpuUtilization", "oci_computeagent", [], "CpuUtilization [eu-frankfurt-1] (c1)", "",
          [], ⟨"eu-frankfurt-1", "c1", "c1"⟩, "CpuUtilization"⟩]⟩ :
      UnifiedResult).compartment_name
        = get_compartment_name []
          (⟨"eu-frankfurt-1", "c1", "c1", "CpuUtilization[1h].mean()", "oci_computeagent",
            "2024-01-01T00:00:00", "2024-01-02T00:00:00",
            [⟨"CpuUtilization", "oci_computeagent", [], "CpuUtilization [eu-frankfurt-1] (c1)",
              "", [], ⟨"eu-frankfurt-1", "c1", "c1"⟩, "CpuUtilization"⟩]⟩ :
          UnifiedResult).compartment_id ∧
    (([] : List (String × CompartmentEntry)).lookup
        (⟨"eu-frankfurt-1", "c1", "c1", "CpuUtilization[1h].mean()", "oci_computeagent",
          "2024-01-01T00:00:00", "2024-01-02T00:00:00",
          [⟨"CpuUtilization", "oci_computeagent", [], "CpuUtilization [eu-frankfurt-1] (c1)",
            "", [], ⟨"eu-frankfurt-1", "c1", "c1"⟩, "CpuUtilization"⟩]⟩ :
        UnifiedResult).compartment_id = none →
      (⟨"eu-frankfurt-1", "c1", "c1", "CpuUtilization[1h].mean()", "oci_computeagent",
        "2024-01-01T00:00:00", "2024-01-02T00:00:00",
        [⟨"CpuUtilization", "oci_computeagent", [], "CpuUtilization [eu-frankfurt-1] (c1)", "",
          [], ⟨"eu-frankfurt-1", "c1", "c1"⟩, "CpuUtilization"⟩]⟩ :
        UnifiedResult).compartment_name
        = (⟨"eu-frankfurt-1", "c1", "c1", "CpuUtilization[1h].mean()", "oci_computeagent",
            "2024-01-01T00:00:00", "2024-01-02T00:00:00",
            [⟨"CpuUtilization", "oci_computeagent", [], "CpuUtilization [eu-frankfurt-1] (c1)",
              "", [], ⟨"eu-frankfurt-1", "c1", "c1"⟩, "CpuUtilization"⟩]⟩ :
          UnifiedResult).compartment_id) ∧
    (∀ entry, ([] : List (String × CompartmentEntry)).lookup
        (⟨"eu-frankfurt-1", "c1", "c1", "CpuUtilization[1h].mean()", "oci_computeagent",
          "2024-01-01T00:00:00", "2024-01-02T00:00:00",
          [⟨"CpuUtilization", "oci_computeagent", [], "CpuUtilization [eu-frankfurt-1] (c1)",
            "", [], ⟨"eu-frankfurt-1", "c1", "c1"⟩, "CpuUtilization"⟩]⟩ :
        UnifiedResult).compartment_id = some entry →
      (⟨"eu-frankfurt-1", "c1", "c1", "CpuUtilization[1h].mean()", "oci_computeagent",
        "2024-01-01T00:00:00", "2024-01-02T00:00:00",
        [⟨"CpuUtilization", "oci_computeagent", [], "CpuUtilization [eu-frankfurt-1] (c1)", "",
          [], ⟨"eu-frankfurt-1", "c1", "c1"⟩, "CpuUtilization"⟩]⟩ :
        UnifiedResult).compartment_name = entry.name) ∧
    (∀ s ∈ (⟨"eu-frankfurt-1", "c1", "c1", "CpuUtilization[1h].mean()", "oci_computeagent",
        "2024-01-01T00:00:00", "2024-01-02T00:00:00",
        [⟨"CpuUtilization", "oci_computeagent", [], "CpuUtilization [eu-frankfurt-1] (c1)", "",
          [], ⟨"eu-frankfurt-1", "c1", "c1"⟩, "CpuUtilization"⟩]⟩ :
        UnifiedResult).metric_data,
      s.label = s.short_label ++ " ["
          ++ (⟨"eu-frankfurt-1", "c1", "c1", "CpuUtilization[1h].mean()", "oci_computeagent",
              "2024-01-01T00:00:00", "2024-01-02T00:00:00",
              [⟨"CpuUtilization", "oci_computeagent", [],
                "CpuUtilization [eu-frankfurt-1] (c1)", "", [],
                ⟨"eu-frankfurt-1", "c1", "c1"⟩, "CpuUtilization"⟩]⟩ :
            UnifiedResult).region ++ "] ("
          ++ (⟨"eu-frankfurt-1", "c1", "c1", "CpuUtilization[1h].mean()", "oci_computeagent",
              "2024-01-01T00:00:00", "2024-01-02T00:00:00",
              [⟨"CpuUtilization", "oci_computeagent", [],
                "CpuUtilization [eu-frankfurt-1] (c1)", "", [],
                ⟨"eu-frankfurt-1", "c1", "c1"⟩, "CpuUtilization"⟩]⟩ :
            UnifiedResult).compartment_name ++ ")" ∧
        ∃ s₀ : Series,
          s = enrich_series
            (⟨"eu-frankfurt-1", "c1", "c1", "CpuUtilization[1h].mean()", "oci_computeagent",
              "2024-01-01T00:00:00", "2024-01-02T00:00:00",
              [⟨"CpuUtilization", "oci_computeagent", [],
                "CpuUtilization [eu-frankfurt-1] (c1)", "", [],
                ⟨"eu-frankfurt-1", "c1", "c1"⟩, "CpuUtilization"⟩]⟩ :
              UnifiedResult).region
            (⟨"eu-frankfurt-1", "c1", "c1", "CpuUtilization[1h].mean()", "oci_computeagent",
              "2024-01-01T00:00:00", "2024-01-02T00:00:00",
              [⟨"CpuUtilization", "oci_computeagent", [],
                "CpuUtilization [eu-frankfurt-1] (c1)", "", [],
                ⟨"eu-frankfurt-1", "c1", "c1"⟩, "CpuUtilization"⟩]⟩ :
              UnifiedResult).compartment_id
            (⟨"eu-frankfurt-1", "c1", "c1", "CpuUtilization[1h].mean()", "oci_computeagent",
              "2024-01-01T00:00:00", "2024-01-02T00:00:00",
              [⟨"CpuUtilization", "oci_computeagent", [],
                "CpuUtilization [eu-frankfurt-1] (c1)", "", [],
                ⟨"eu-frankfurt-1", "c1", "c1"⟩, "CpuUtilization"⟩]⟩ :
              UnifiedResult).compartment_name s₀ ∧
          s.short_label = s₀.label) :=
  unified_series_labels
    ⟨"us-ashburn-1",
      fun _ => .ok ⟨fun _ _ => .ok [⟨"CpuUtilization", "oci_computeagent", [], [], []⟩]⟩,
      .ok []⟩
    [] (some [some "eu-frankfurt-1"]) ["c1"] "oci_computeagent" "CpuUtilization[1h].mean()"
    ⟨2024, 1, 1, 0, 0, 0, 0, none⟩ ⟨2024, 1, 2, 0, 0, 0, 0, none⟩ none
    ⟨"eu-frankfurt-1", "c1", "c1", "CpuUtilization[1h].mean()", "oci_computeagent",
      "2024-01-01T00:00:00", "2024-01-02T00:00:00",
      [⟨"CpuUtilization", "oci_computeagent", [], "CpuUtilization [eu-frankfurt-1] (c1)", "",
        [], ⟨"eu-frankfurt-1", "c1", "c1"⟩, "CpuUtilization"⟩]⟩
    (by decide)

/-- C9: `query_metrics` submits a timezone-naive start/end time as its
ISO-8601 rendering with a literal `Z` appended, and a timezone-aware one
as its ISO-8601 rendering unchanged. -/
theorem query_metrics_timestamp_rendering (ns q : String) (reso : Option String)
    (st et : DateTime) :
    (st.utcoffset_minutes = none →
      (mk_summarize_details ns q st et reso).start_time = st.isoformat ++ "Z") ∧
    (∀ off, st.utcoffset_minutes = some off →
      (mk_summarize_details ns q st et reso).start_time = st.isoformat) ∧
    (et.utcoffset_minutes = none →
      (mk_summarize_details ns q st et reso).end_time = et.isoformat ++ "Z") ∧
    (∀ off, et.utcoffset_minutes = some off →
      (mk_summarize_details ns q st et reso).end_time = et.isoformat) := by
  refine ⟨fun h => ?_, fun off h => ?_, fun h => ?_, fun off h => ?_⟩ <;>
    simp [mk_summarize_details, h]

theorem query_metrics_timestamp_rendering_witness :
    (mk_summarize_details "oci_computeagent" "CpuUtilization[1h].mean()"
        ⟨2024, 1, 1, 0, 0, 0, 0, none⟩ ⟨2024, 1, 2, 3, 4, 5, 0, some 120⟩ none).start_time
      = (⟨2024, 1, 1, 0, 0, 0, 0, none⟩ : DateTime).isoformat ++ "Z" ∧
    (mk_summarize_details "oci_computeagent" "CpuUtilization[1h].mean()"
        ⟨2024, 1, 1, 0, 0, 0, 0, none⟩ ⟨2024, 1, 2, 3, 4, 5, 0, some 120⟩ none).end_time
      = (⟨2024, 1, 2, 3, 4, 5, 0, some 120⟩ : DateTime).isoformat ∧
    (⟨2024, 1, 1, 0, 0, 0, 0, none⟩ : DateTime).isoformat ++ "Z" = "2024-01-01T00:00:00Z" ∧
    (⟨2024, 1, 2, 3, 4, 5, 0, some 120⟩ : DateTime).isoformat = "2024-01-02T03:04:05+02:00" :=
  ⟨(query_metrics_timestamp_rendering "oci_computeagent" "CpuUtilization[1h].mean()" none
      ⟨2024, 1, 1, 0, 0, 0, 0, none⟩ ⟨2024, 1, 2, 3, 4, 5, 0, some 120⟩).1 rfl,
   (query_metrics_timestamp_rendering "oci_computeagent" "CpuUtilization[1h].mean()" none
      ⟨2024, 1, 1, 0, 0, 0, 0, none⟩ ⟨2024, 1, 2, 3, 4, 5, 0, some 120⟩).2.2.2 120 rfl,
   by decide, by decide⟩

/-- C2 counterexample: an environment in which the security token file
exists (and is read successfully) but loading the private key raises.
`get_signer` in `SECURITY_TOKEN` mode propagates the exception instead of
falling back to config-file mode, refuting the claim that a missing
private key file silently falls back. -/
theorem get_signer_key_missing_counterexample :
    (⟨fun _ _ => .ok ⟨some "us-ashburn-1", some "ocid1.tenancy.oc1..aaa",
          some "/home/user/token", some "/home/user/key.pem"⟩,
        id, fun p => p == "/home/user/token",
        fun p => if p == "/home/user/token" then .ok "tokendata\n" else .error "FileNotFoundError",
        fun _ => .error "FileNotFoundError: key.pem", .error "na", .error "na"⟩ :
      AuthEnv).path_exists "/home/user/token" = true ∧
    (⟨fun _ _ => .ok ⟨some "us-ashburn-1", some "ocid1.tenancy.oc1..aaa",
          some "/home/user/token", some "/home/user/key.pem"⟩,
        id, fun p => p == "/home/user/token",
        fun p => if p == "/home/user/token" then .ok "tokendata\n" else .error "FileNotFoundError",
        fun _ => .error "FileNotFoundError: key.pem", .error "na", .error "na"⟩ :
      AuthEnv).load_private_key_from_file "/home/user/key.pem"
      = .error "FileNotFoundError: key.pem" ∧
    get_signer
      ⟨fun _ _ => .ok ⟨some "us-ashburn-1", some "ocid1.tenancy.oc1..aaa",
          some "/home/user/token", some "/home/user/key.pem"⟩,
        id, fun p => p == "/home/user/token",
        fun p => if p == "/home/user/token" then .ok "tokendata\n" else .error "FileNotFoundError",
        fun _ => .error "FileNotFoundError: key.pem", .error "na", .error "na"⟩
      .SECURITY_TOKEN "~/.oci/config" "DEFAULT"
      = .error "FileNotFoundError: key.pem" :=
  ⟨rfl, rfl, rfl⟩

/-- C2 (amended): in security-token mode, a missing, blank or nonexistent
token file silently falls back to static config-file mode; but when the
token file exists and is read, a failure to load the private key file
propagates as an error instead of falling back. -/
theorem get_signer_security_token_fallback (env : AuthEnv) (cf pf : String)
    (cfg : OCIConfig) (hcfg : env.from_file cf pf = .ok cfg) :
    (cfg.security_token_file = none →
      get_signer env .SECURITY_TOKEN cf pf = .ok (cfg, none)) ∧
    (∀ tf, cfg.security_token_file = some tf →
      (tf = "" ∨ env.path_exists (env.expanduser tf) = false) →
      get_signer env .SECURITY_TOKEN cf pf = .ok (cfg, none)) ∧
    (∀ tf contents kf e, cfg.security_token_file = some tf → tf ≠ "" →
      env.path_exists (env.expanduser tf) = true →
      env.read_file (env.expanduser tf) = .ok contents →
      cfg.key_file = some kf →
      env.load_private_key_from_file (env.expanduser kf) = .error e →
      get_signer env .SECURITY_TOKEN cf pf = .error e) := by
  refine ⟨fun h => ?_, fun tf htf hcase => ?_, fun tf contents kf e htf htfne hex hread hkf hload => ?_⟩
  · simp [get_signer, hcfg, h]
  · have hcond : (tf != "" && env.path_exists (env.expanduser tf)) = false := by
      rcases hcase with hc | hc
      · subst hc; rfl
      · rw [hc, Bool.and_false]
    simp [get_signer, hcfg, htf, hcond]
  · have hcond : (tf != "" && env.path_exists (env.expanduser tf)) = true := by
      rw [hex, Bool.and_true, bne_iff_ne]
      exact htfne
    simp [get_signer, hcfg, htf, hcond, hread, hkf, hload]

theorem get_signer_security_token_fallback_witness :
    get_signer
      ⟨fun _ _ => .ok ⟨some "us-ashburn-1", some "ocid1.tenancy.oc1..aaa", none, none⟩,
        id, fun _ => false, fun _ => .error "x", fun _ => .error "x", .error "na", .error "na"⟩
      .SECURITY_TOKEN "~/.oci/config" "DEFAULT"
      = .ok (⟨some "us-ashburn-1", some "ocid1.tenancy.oc1..aaa", none, none⟩, none) ∧
    get_signer
      ⟨fun _ _ => .ok ⟨some "us-ashburn-1", some "ocid1.tenancy.oc1..aaa",
          some "/home/user/token", some "/home/user/key.pem"⟩,
        id, fun p => p == "/home/user/token",
        fun p => if p == "/home/user/token" then .ok "tokendata\n" else .error "FileNotFoundError",
        fun _ => .error "FileNotFoundError: key.pem", .error "na", .error "na"⟩
      .SECURITY_TOKEN "~/.oci/config" "DEFAULT"
      = .error "FileNotFoundError: key.pem" :=
  ⟨(get_signer_security_token_fallback
      ⟨fun _ _ => .ok ⟨some "us-ashburn-1", some "ocid1.tenancy.oc1..aaa", none, none⟩,
        id, fun _ => false, fun _ => .error "x", fun _ => .error "x", .error "na", .error "na"⟩
      "~/.oci/config" "DEFAULT"
      ⟨some "us-ashburn-1", some "ocid1.tenancy.oc1..aaa", none, none⟩ rfl).1 rfl,
   (get_signer_security_token_fallback
      ⟨fun _ _ => .ok ⟨some "us-ashburn-1", some "ocid1.tenancy.oc1..aaa",
          some "/home/user/token", some "/home/user/key.pem"⟩,
        id, fun p => p == "/home/user/token",
        fun p => if p == "/home/user/token" then .ok "tokendata\n" else .error "FileNotFoundError",
        fun _ => .error "FileNotFoundError: key.pem", .error "na", .error "na"⟩
      "~/.oci/config" "DEFAULT"
      ⟨some "us-ashburn-1", some "ocid1.tenancy.oc1..aaa",
        some "/home/user/token", some "/home/user/key.pem"⟩ rfl).2.2
      "/home/user/token" "tokendata\n" "/home/user/key.pem" "FileNotFoundError: key.pem"
      rfl (by decide) rfl rfl rfl rfl⟩

theorem pySplitAux_ne_nil (p : List Char) :
    ∀ (fuel : Nat) (s : List Char), pySplitAux p fuel s ≠ []
  | _, [] => by simp [pySplitAux]
  | 0, _ :: _ => by simp [pySplitAux]
  | _ + 1, c :: cs => by
      simp only [pySplitAux]
      split
      · simp
      · split <;> simp

theorem pyJoinChars_cons_cons (r : List Char) (c : Char) (x : List Char)
    (xs : List (List Char)) :
    pyJoinChars r ((c :: x) :: xs) = c :: pyJoinChars r (x :: xs) := by
  cases xs with
  | nil => rfl
  | cons z zs => simp [pyJoinChars]

theorem pyReplaceAux_eq_pyJoinChars (p r : List Char) :
    ∀ (fuel : Nat) (s : List Char),
      pyReplaceAux p r fuel s = pyJoinChars r (pySplitAux p fuel s)
  | _, [] => by simp [pyReplaceAux, pySplitAux, pyJoinChars]
  | 0, _ :: _ => by simp [pyReplaceAux, pySplitAux, pyJoinChars]
  | fuel + 1, c :: cs => by
      simp only [pyReplaceAux, pySplitAux]
      by_cases hp : p.isPrefixOf (c :: cs)
      · rw [if_pos hp, if_pos hp]
        obtain ⟨x, xs, hx⟩ :=
          List.exists_cons_of_ne_nil (pySplitAux_ne_nil p fuel ((c :: cs).drop p.length))
        rw [hx, pyReplaceAux_eq_pyJoinChars p r fuel ((c :: cs).drop p.length), hx]
        simp [pyJoinChars]
      · rw [if_neg hp, if_neg hp]
        obtain ⟨x, xs, hx⟩ := List.exists_cons_of_ne_nil (pySplitAux_ne_nil p fuel cs)
        rw [hx, pyJoinChars_cons_cons,
          pyReplaceAux_eq_pyJoinChars p r fuel cs, hx]

theorem pyJoin_map_mk (r : String) :
    ∀ ls : List (List Char),
      pyJoin r (ls.map (fun l => (⟨l⟩ : String))) = ⟨pyJoinChars r.data ls⟩
  | [] => rfl
  | [_] => rfl
  | x :: y :: ls => by
      show (⟨x⟩ : String) ++ r ++ pyJoin r ((y :: ls).map (fun l => (⟨l⟩ : String)))
          = (⟨x ++ r.data ++ pyJoinChars r.data (y :: ls)⟩ : String)
      rw [pyJoin_map_mk r (y :: ls)]
      rfl

theorem pyReplace_eq_pyJoin_pySplit (s pat rep : String) :
    pyReplace s pat rep = pyJoin rep (pySplit s pat) := by
  unfold pyReplace pySplit
  rw [pyJoin_map_mk, pyReplaceAux_eq_pyJoinChars]

/-- C10: with `--json` and an output path ending in `.html`, the report is
written to the path obtained by replacing every (non-overlapping, scanned
left to right) occurrence of `.html` with `.json` — equivalently, joining
the `.html`-separated fragments with `.json`; in every other case the
report goes to the output path exactly as given. -/
theorem main_output_file_replaces (json_flag : Bool) (output : String) :
    (json_flag = true → pyEndsWith output ".html" = true →
      main_output_file json_flag output = pyJoin ".json" (pySplit output ".html")) ∧
    (json_flag = false → main_output_file json_flag output = output) ∧
    (pyEndsWith output ".html" = false → main_output_file json_flag output = output) := by
  refine ⟨fun hj he => ?_, fun hj => ?_, fun he => ?_⟩
  · subst hj
    simp [main_output_file, he, pyReplace_eq_pyJoin_pySplit]
  · subst hj
    simp [main_output_file]
  · cases json_flag <;> simp [main_output_file, he]

theorem main_output_file_replaces_witness :
    pyEndsWith "report.html.html" ".html" = true ∧
    main_output_file true "report.html.html" = pyJoin ".json" (pySplit "report.html.html" ".html") ∧
    main_output_file true "report.html.html" = "report.json.json" ∧
    main_output_file false "report.html.html" = "report.html.html" :=
  ⟨by decide,
   (main_output_file_replaces true "report.html.html").1 rfl (by decide),
   by decide,
   (main_output_file_replaces false "report.html.html").2.1 rfl⟩

theorem mem_setInsert (s : List String) (k x : String) :
    x ∈ setInsert s k ↔ x ∈ s ∨ x = k := by
  unfold setInsert
  by_cases hk : k ∈ s
  · rw [if_pos hk]
    constructor
    · exact Or.inl
    · rintro (h | rfl)
      · exact h
      · exact hk
  · rw [if_neg hk]
    simp

theorem nodup_setInsert (s : List String) (k : String) (h : s.Nodup) :
    (setInsert s k).Nodup := by
  unfold setInsert
  by_cases hk : k ∈ s
  · rw [if_pos hk]; exact h
  · rw [if_neg hk]
    simp [List.nodup_append, h, hk]

theorem mem_setUpdate (x : String) :
    ∀ (ks s : List String), x ∈ setUpdate s ks ↔ x ∈ s ∨ x ∈ ks
  | [], s => by simp [setUpdate]
  | k :: ks, s => by
      have : setUpdate s (k :: ks) = setUpdate (setInsert s k) ks := rfl
      rw [this, mem_setUpdate x ks (setInsert s k), mem_setInsert]
      simp only [List.mem_cons]
      tauto

theorem nodup_setUpdate : ∀ (ks s : List String), s.Nodup → (setUpdate s ks).Nodup
  | [], _, h => h
  | k :: ks, s, h => nodup_setUpdate ks (setInsert s k) (nodup_setInsert s k h)

theorem lookup_isSome_iff {β : Type _} :
    ∀ (l : List (String × β)) (n : String),
      ((l.lookup n).isSome = true) ↔ n ∈ l.map Prod.fst
  | [], n => by simp
  | (k, v) :: l, n => by
      simp only [List.lookup, List.map_cons, List.mem_cons]
      cases hnk : (n == k) with
      | true =>
          simp only [Option.isSome_some]
          exact iff_of_true trivial (Or.inl (by exact beq_iff_eq.mp hnk))
      | false =>
          have hne : n ≠ k := by simpa using hnk
          rw [lookup_isSome_iff l n]
          simp [hne]

theorem update_dims_fst (m : Metric) (kv : String × MetricAccum) :
    (update_dims m kv).1 = kv.1 := by
  unfold update_dims
  split <;> rfl

theorem map_fst_map_update_dims (m : Metric) (acc : List (String × MetricAccum)) :
    (acc.map (update_dims m)).map Prod.fst = acc.map Prod.fst := by
  rw [List.map_map]
  exact List.map_congr_left (fun kv _ => update_dims_fst m kv)

theorem list_metrics_step_inv (seen : List Metric) (acc : List (String × MetricAccum)) (m : Metric)
    (h1 : (acc.map Prod.fst).Nodup)
    (h2 : ∀ kv ∈ acc, kv.2.name = kv.1)
    (h3 : ∀ n : String, ((acc.lookup n).isSome = true) ↔ n ∈ seen.map Metric.name)
    (h4 : ∀ kv ∈ acc, kv.2.dimensions.Nodup ∧
      (∀ k, k ∈ kv.2.dimensions ↔
        ∃ md ∈ seen, md.name = kv.1 ∧ k ∈ md.dimensions.map Prod.fst)) :
    (((list_metrics_step acc m).map Prod.fst).Nodup) ∧
    (∀ kv ∈ list_metrics_step acc m, kv.2.name = kv.1) ∧
    (∀ n : String, (((list_metrics_step acc m).lookup n).isSome = true) ↔
      n ∈ (seen ++ [m]).map Metric.name) ∧
    (∀ kv ∈ list_metrics_step acc m, kv.2.dimensions.Nodup ∧
      (∀ k, k ∈ kv.2.dimensions ↔
        ∃ md ∈ seen ++ [m], md.name = kv.1 ∧ k ∈ md.dimensions.map Prod.fst)) := by
  suffices H : ∀ acc1 : List (String × MetricAccum),
      (acc1.map Prod.fst).Nodup →
      (∀ kv ∈ acc1, kv.2.name = kv.1) →
      (∀ n : String, ((acc1.lookup n).isSome = true) ↔
        (n ∈ seen.map Metric.name ∨ n = m.name)) →
      (∀ kv ∈ acc1, kv.2.dimensions.Nodup ∧
        (∀ k, k ∈ kv.2.dimensions ↔
          ∃ md ∈ seen, md.name = kv.1 ∧ k ∈ md.dimensions.map Prod.fst)) →
      (((acc1.map (update_dims m)).map Prod.fst).Nodup) ∧
      (∀ kv ∈ acc1.map (update_dims m), kv.2.name = kv.1) ∧
      (∀ n : String, (((acc1.map (update_dims m)).lookup n).isSome = true) ↔
        n ∈ (seen ++ [m]).map Metric.name) ∧
      (∀ kv ∈ acc1.map (update_dims m), kv.2.dimensions.Nodup ∧
        (∀ k, k ∈ kv.2.dimensions ↔
          ∃ md ∈ seen ++ [m], md.name = kv.1 ∧ k ∈ md.dimensions.map Prod.fst)) by
    unfold list_metrics_step
    cases hlook : acc.lookup m.name with
    | some v =>
        refine H acc h1 h2 (fun n => ?_) h4
        constructor
        · intro hs
          exact Or.inl ((h3 n).mp hs)
        · rintro (hs | rfl)
          · exact (h3 n).mpr hs
          · rw [hlook]; rfl
    | none =>
        have hnotmem : m.name ∉ acc.map Prod.fst := by
          intro hmem
          have := (lookup_isSome_iff acc m.name).mpr hmem
          rw [hlook] at this
          exact absurd this (by simp)
        refine H (acc ++ [(m.name,
            { name := m.name, namespace_ := m.namespace_, dimensions := [],
              resource_group := m.resource_group })]) ?_ ?_ ?_ ?_
        · simpa [List.nodup_append, h1] using hnotmem
        · intro kv hkv
          rcases List.mem_append.mp hkv with h | h
          · exact h2 kv h
          · simp only [List.mem_singleton] at h
            rw [h]
        · intro n
          rw [lookup_isSome_iff]
          simp only [List.map_append, List.mem_append, List.map_cons, List.map_nil,
            List.mem_singleton]
          rw [← lookup_isSome_iff, h3]
        · intro kv hkv
          rcases List.mem_append.mp hkv with h | h
          · exact h4 kv h
          · simp only [List.mem_singleton] at h
            subst h
            refine ⟨List.nodup_nil, fun k => ?_⟩
            simp only [List.not_mem_nil, false_iff]
            rintro ⟨md, hmd, hname, _⟩
            have : m.name ∈ seen.map Metric.name := by
              rw [← hname]
              exact List.mem_map_of_mem Metric.name hmd
            have := (h3 m.name).mpr this
            rw [hlook] at this
            exact absurd this (by simp)
  intro acc1 g1 g2 g3 g4
  refine ⟨?_, ?_, ?_, ?_⟩
  · rw [map_fst_map_update_dims]
    exact g1
  · intro kv hkv
    obtain ⟨kv0, hkv0, hfe⟩ := List.mem_map.mp hkv
    subst hfe
    unfold update_dims
    split
    · exact g2 kv0 hkv0
    · exact g2 kv0 hkv0
  · intro n
    rw [lookup_isSome_iff, map_fst_map_update_dims, ← lookup_isSome_iff, g3]
    simp
  · intro kv hkv
    obtain ⟨kv0, hkv0, hfe⟩ := List.mem_map.mp hkv
    obtain ⟨hnd0, hmem0⟩ := g4 kv0 hkv0
    subst hfe
    unfold update_dims
    split
    · next heq =>
        refine ⟨nodup_setUpdate _ _ hnd0, fun k => ?_⟩
        rw [mem_setUpdate, hmem0 k]
        constructor
        · rintro (⟨md, hmd, hname, hk⟩ | hk)
          · exact ⟨md, List.mem_append.mpr (Or.inl hmd), hname, hk⟩
          · exact ⟨m, List.mem_append.mpr (Or.inr (List.mem_singleton.mpr rfl)),
              heq.symm, hk⟩
        · rintro ⟨md, hmd, hname, hk⟩
          rcases List.mem_append.mp hmd with h | h
          · exact Or.inl ⟨md, h, hname, hk⟩
          · simp only [List.mem_singleton] at h
            subst h
            exact Or.inr hk
    · next hne =>
        refine ⟨hnd0, fun k => ?_⟩
        rw [hmem0 k]
        constructor
        · rintro ⟨md, hmd, hname, hk⟩
          exact ⟨md, List.mem_append.mpr (Or.inl hmd), hname, hk⟩
        · rintro ⟨md, hmd, hname, hk⟩
          rcases List.mem_append.mp hmd with h | h
          · exact ⟨md, h, hname, hk⟩
          · simp only [List.mem_singleton] at h
            subst h
            exact absurd hname.symm hne

theorem list_metrics_foldl_inv :
    ∀ (ms seen : List Metric) (acc : List (String × MetricAccum)),
      ((acc.map Prod.fst).Nodup) →
      (∀ kv ∈ acc, kv.2.name = kv.1) →
      (∀ n : String, ((acc.lookup n).isSome = true) ↔ n ∈ seen.map Metric.name) →
      (∀ kv ∈ acc, kv.2.dimensions.Nodup ∧
        (∀ k, k ∈ kv.2.dimensions ↔
          ∃ md ∈ seen, md.name = kv.1 ∧ k ∈ md.dimensions.map Prod.fst)) →
      (((ms.foldl list_metrics_step acc).map Prod.fst).Nodup) ∧
      (∀ kv ∈ ms.foldl list_metrics_step acc, kv.2.name = kv.1) ∧
      (∀ n : String, (((ms.foldl list_metrics_step acc).lookup n).isSome = true) ↔
        n ∈ (seen ++ ms).map Metric.name) ∧
      (∀ kv ∈ ms.foldl list_metrics_step acc, kv.2.dimensions.Nodup ∧
        (∀ k, k ∈ kv.2.dimensions ↔
          ∃ md ∈ seen ++ ms, md.name = kv.1 ∧ k ∈ md.dimensions.map Prod.fst))
  | [], seen, acc, h1, h2, h3, h4 => by
      simp only [List.foldl_nil, List.append_nil]
      exact ⟨h1, h2, h3, h4⟩
  | m :: ms, seen, acc, h1, h2, h3, h4 => by
      obtain ⟨s1, s2, s3, s4⟩ := list_metrics_step_inv seen acc m h1 h2 h3 h4
      have := list_metrics_foldl_inv ms (seen ++ [m]) (list_metrics_step acc m) s1 s2 s3 s4
      simpa [List.append_assoc] using this

theorem countP_keys_eq_one {β : Type _} :
    ∀ (l : List (String × β)) (n : String), (l.map Prod.fst).Nodup →
      n ∈ l.map Prod.fst → l.countP (fun kv => kv.1 == n) = 1
  | [], n, _, hn => by simp at hn
  | (k, v) :: l, n, hnd, hn => by
      simp only [List.map_cons, List.nodup_cons, List.mem_cons] at hnd hn
      by_cases hk : k = n
      · subst hk
        rw [List.countP_cons]
        have hzero : l.countP (fun kv => kv.1 == k) = 0 := by
          rw [List.countP_eq_zero]
          intro kv hkv
          simp only [beq_iff_eq]
          intro hc
          exact hnd.1 (hc ▸ List.mem_map_of_mem Prod.fst hkv)
        simp [hzero]
      · have hn' : n ∈ l.map Prod.fst := hn.resolve_left (fun h => hk h.symm)
        rw [List.countP_cons]
        have hfalse : ((k, v).1 == n) = false := by simp [hk]
        rw [hfalse]
        simp [countP_keys_eq_one l n hnd.2 hn']

/-- C4: for every set of provider metric records sharing a metric name,
`list_metrics` returns exactly one entry with that name; its dimensions
list is the duplicate-free, lexicographically sorted union of all dimension
keys across those records; and the whole result is sorted by metric
name. -/
theorem list_metrics_dedup_union (response : List Metric) (n : String)
    (hn : n ∈ response.map Metric.name) :
    (((list_metrics response).filter (fun e => e.name == n)).length = 1) ∧
    (∀ e ∈ list_metrics response, e.name = n →
      (∀ k, k ∈ e.dimensions ↔
        ∃ md ∈ response, md.name = n ∧ k ∈ md.dimensions.map Prod.fst) ∧
      e.dimensions.Nodup ∧
      List.Sorted (fun a b => pyStrLe a b = true) e.dimensions) ∧
    List.Sorted (fun a b => pyStrLe a.name b.name = true) (list_metrics response) := by
  obtain ⟨h1, h2, h3, h4⟩ :=
    list_metrics_foldl_inv response [] [] (by simp) (by simp) (by simp) (by simp)
  simp only [List.nil_append] at h3 h4
  have hlist : list_metrics response
      = pySort (fun a b => pyStrLe a.name b.name)
          ((response.foldl list_metrics_step []).map (fun kv =>
            ({ name := kv.2.name, namespace_ := kv.2.namespace_,
               dimensions := pySort pyStrLe kv.2.dimensions,
               resource_group := kv.2.resource_group } : MetricEntry))) := rfl
  refine ⟨?_, ?_, ?_⟩
  · rw [hlist, ← List.countP_eq_length_filter,
      (perm_pySort (fun a b : MetricEntry => pyStrLe a.name b.name) _).countP_eq,
      List.countP_map]
    have hpt : (response.foldl list_metrics_step []).countP
        ((fun (e : MetricEntry) => e.name == n) ∘ (fun kv =>
          ({ name := kv.2.name, namespace_ := kv.2.namespace_,
             dimensions := pySort pyStrLe kv.2.dimensions,
             resource_group := kv.2.resource_group } : MetricEntry)))
        = (response.foldl list_metrics_step []).countP (fun kv => kv.1 == n) := by
      apply List.countP_congr
      intro kv hkv
      simp only [Function.comp]
      rw [h2 kv hkv]
    rw [hpt]
    refine countP_keys_eq_one _ n h1 ?_
    rw [← lookup_isSome_iff, h3]
    exact hn
  · intro e he hname
    rw [hlist] at he
    obtain ⟨kv, hkv, hkve⟩ := List.mem_map.mp (mem_pySort.mp he)
    have hename : e.name = kv.2.name := by rw [← hkve]
    have hedims : e.dimensions = pySort pyStrLe kv.2.dimensions := by rw [← hkve]
    obtain ⟨hnd, hmem⟩ := h4 kv hkv
    have hkv1 : kv.1 = n := by rw [← h2 kv hkv, ← hename, hname]
    refine ⟨fun k => ?_, ?_, ?_⟩
    · rw [hedims, mem_pySort, hmem k, hkv1]
    · rw [hedims]
      exact ((perm_pySort pyStrLe kv.2.dimensions).nodup_iff).mpr hnd
    · rw [hedims]
      exact sorted_pySort pyStrLe pyStrLe_total pyStrLe_trans kv.2.dimensions
  · rw [hlist]
    exact sorted_pySort (fun a b : MetricEntry => pyStrLe a.name b.name)
      (fun a b => pyStrLe_total a.name b.name)
      (fun a b c => pyStrLe_trans a.name b.name c.name) _

theorem list_metrics_dedup_union_witness :
    "CpuUtilization" ∈
      ([⟨"CpuUtilization", "oci_computeagent", [("resourceId", "r1")], none⟩,
        ⟨"CpuUtilization", "oci_computeagent", [("availabilityDomain", "ad1")], none⟩,
        ⟨"MemoryUtilization", "oci_computeagent", [], none⟩] : List Metric).map Metric.name ∧
    (((list_metrics
        [⟨"CpuUtilization", "oci_computeagent", [("resourceId", "r1")], none⟩,
         ⟨"CpuUtilization", "oci_computeagent", [("availabilityDomain", "ad1")], none⟩,
         ⟨"MemoryUtilization", "oci_computeagent", [], none⟩]).filter
        (fun e => e.name == "CpuUtilization")).length = 1) ∧
    (∀ e ∈ list_metrics
        [⟨"CpuUtilization", "oci_computeagent", [("resourceId", "r1")], none⟩,
         ⟨"CpuUtilization", "oci_computeagent", [("availabilityDomain", "ad1")], none⟩,
         ⟨"MemoryUtilization", "oci_computeagent", [], none⟩],
      e.name = "CpuUtilization" →
      (∀ k, k ∈ e.dimensions ↔
        ∃ md ∈ ([⟨"CpuUtilization", "oci_computeagent", [("resourceId", "r1")], none⟩,
          ⟨"CpuUtilization", "oci_computeagent", [("availabilityDomain", "ad1")], none⟩,
          ⟨"MemoryUtilization", "oci_computeagent", [], none⟩] : List Metric),
          md.name = "CpuUtilization" ∧ k ∈ md.dimensions.map Prod.fst) ∧
      e.dimensions.Nodup ∧
      List.Sorted (fun a b => pyStrLe a b = true) e.dimensions) ∧
    List.Sorted (fun a b => pyStrLe a.name b.name = true)
      (list_metrics
        [⟨"CpuUtilization", "oci_computeagent", [("resourceId", "r1")], none⟩,
         ⟨"CpuUtilization", "oci_computeagent", [("availabilityDomain", "ad1")], none⟩,
         ⟨"MemoryUtilization", "oci_computeagent", [], none⟩]) :=
  ⟨by decide,
   list_metrics_dedup_union
     [⟨"CpuUtilization", "oci_computeagent", [("resourceId", "r1")], none⟩,
      ⟨"CpuUtilization", "oci_computeagent", [("availabilityDomain", "ad1")], none⟩,
      ⟨"MemoryUtilization", "oci_computeagent", [], none⟩]
     "CpuUtilization" (by decide)⟩

/-- C3 counterexample: the root entry returned by `list_compartments` has
path `"<tenancy name> (root)"`, not the concatenation of ancestor names
from the root down to it (which for the root itself is just the tenancy
name), so not every returned entry satisfies the claimed path formula. -/
theorem list_compartments_root_counterexample :
    (list_compartments "ocid1.tenancy.oc1..aaa" "T" []).map (fun e => e.path)
      = ["T (root)"] ∧ ("T (root)" : String) ≠ "T" :=
  ⟨rfl, by decide⟩

theorem chain_head_mem {tid : String} {comps : List Compartment} {c : Compartment}
    {ch : List Compartment} (h : Chain tid comps c ch) : c ∈ comps := by
  cases h with
  | base _ hc _ => exact hc
  | step _ p rest hc _ _ => exact hc

theorem chain_mem_comps {tid : String} {comps : List Compartment} {c : Compartment}
    {ch : List Compartment} (h : Chain tid comps c ch) : ∀ x ∈ ch, x ∈ comps := by
  induction h with
  | base c hc _ =>
      intro x hx
      rw [List.mem_singleton.mp hx]
      exact hc
  | step c p rest hc _ _ ih =>
      intro x hx
      rcases List.mem_cons.mp hx with rfl | hx
      · exact hc
      · exact ih x hx

theorem find_comp_eq : ∀ (comps : List Compartment), (comps.map Compartment.id).Nodup →
    ∀ c ∈ comps, comps.find? (fun x => x.id == c.id) = some c
  | [], _, c, hc => absurd hc (List.not_mem_nil c)
  | d :: cs, hnd, c, hc => by
      simp only [List.map_cons, List.nodup_cons] at hnd
      rcases List.mem_cons.mp hc with rfl | hmem
      · simp [List.find?_cons]
      · have hne : (d.id == c.id) = false := by
          simp only [beq_eq_false_iff_ne, ne_eq]
          intro h
          exact hnd.1 (h ▸ List.mem_map_of_mem Compartment.id hmem)
        have hred : List.find? (fun x => x.id == c.id) (d :: cs)
            = List.find? (fun x => x.id == c.id) cs := by
          simp [List.find?_cons, hne]
        rw [hred]
        exact find_comp_eq cs hnd.2 c hmem

theorem filter_id_singleton : ∀ (comps : List Compartment), (comps.map Compartment.id).Nodup →
    ∀ c ∈ comps, comps.filter (fun x => x.id == c.id) = [c]
  | [], _, c, hc => absurd hc (List.not_mem_nil c)
  | d :: cs, hnd, c, hc => by
      simp only [List.map_cons, List.nodup_cons] at hnd
      rcases List.mem_cons.mp hc with rfl | hmem
      · have hnil : cs.filter (fun x => x.id == c.id) = [] := by
          rw [List.filter_eq_nil_iff]
          intro x hx
          simp only [beq_iff_eq]
          intro h
          exact hnd.1 (h ▸ List.mem_map_of_mem Compartment.id hx)
        simp [List.filter_cons, hnil]
      · have hne : (d.id == c.id) = false := by
          simp only [beq_eq_false_iff_ne, ne_eq]
          intro h
          exact hnd.1 (h ▸ List.mem_map_of_mem Compartment.id hmem)
        have hred : List.filter (fun x => x.id == c.id) (d :: cs)
            = List.filter (fun x => x.id == c.id) cs := by
          simp [List.filter_cons, hne]
        rw [hred]
        exact filter_id_singleton cs hnd.2 c hmem

theorem compartment_map_of_mem (tid tname : String) (comps : List Compartment)
    (hnd : (comps.map Compartment.id).Nodup) (c : Compartment) (hc : c ∈ comps) :
    compartment_map tid tname comps c.id = some c.name := by
  unfold compartment_map
  rw [filter_id_singleton comps hnd c hc]
  rfl

theorem pyJoin_append_singleton (sep y : String) :
    ∀ xs : List String, xs ≠ [] → pyJoin sep (xs ++ [y]) = pyJoin sep xs ++ sep ++ y
  | [], h => absurd rfl h
  | [_], _ => rfl
  | x :: x' :: xs, _ => by
      show x ++ sep ++ pyJoin sep ((x' :: xs) ++ [y])
          = x ++ sep ++ pyJoin sep (x' :: xs) ++ sep ++ y
      rw [pyJoin_append_singleton sep y (x' :: xs) (by simp)]
      simp [String.append_assoc]

theorem get_path_chain (tid tname : String) (comps : List Compartment)
    (hnd : (comps.map Compartment.id).Nodup) (htid : tid ∉ comps.map Compartment.id) :
    ∀ (c : Compartment) (ch : List Compartment), Chain tid comps c ch →
      (ch.map Compartment.id).Nodup →
      ∀ (fuel : Nat) (visited : List String), ch.length ≤ fuel →
        (∀ x ∈ ch, x.id ∉ visited) →
        get_path tid tname comps fuel c.id visited
          = tname ++ "/" ++ pyJoin "/" (ch.reverse.map Compartment.name) := by
  intro c ch hch
  induction hch with
  | base c hc hp =>
      intro hchnd fuel visited hfuel hvis
      cases fuel with
      | zero => simp at hfuel
      | succ f =>
          simp only [get_path]
          rw [if_neg (hvis c (List.mem_singleton.mpr rfl))]
          rw [find_comp_eq comps hnd c hc]
          have hbeq : (c.compartment_id == tid) = true := beq_iff_eq.mpr hp
          simp only [hbeq, if_true]
          rw [compartment_map_of_mem tid tname comps hnd c hc]
          rfl
  | step c p rest hc hp hsub ih =>
      intro hchnd fuel visited hfuel hvis
      cases fuel with
      | zero => simp at hfuel
      | succ f =>
          have hcvis : c.id ∉ visited := hvis c (List.mem_cons_self c _)
          simp only [get_path]
          rw [if_neg hcvis]
          rw [find_comp_eq comps hnd c hc]
          have hpmem : p ∈ comps := chain_head_mem hsub
          have hbeq : (c.compartment_id == tid) = false := by
            rw [hp]
            simp only [beq_eq_false_iff_ne, ne_eq]
            intro heq
            exact htid (heq ▸ List.mem_map_of_mem Compartment.id hpmem)
          simp only [hbeq, Bool.false_eq_true, if_false]
          rw [hp]
          obtain ⟨hcnotin, hchnd'⟩ :
              c.id ∉ (p :: rest).map Compartment.id ∧
                ((p :: rest).map Compartment.id).Nodup := by
            rw [List.map_cons, List.nodup_cons] at hchnd
            exact hchnd
          have hfuel' : (p :: rest).length ≤ f := by
            simpa using Nat.le_of_succ_le_succ hfuel
          have hvis' : ∀ x ∈ p :: rest, x.id ∉ c.id :: visited := by
            intro x hx
            simp only [List.mem_cons, not_or]
            constructor
            · intro hxc
              exact hcnotin (hxc ▸ List.mem_map_of_mem Compartment.id hx)
            · exact hvis x (List.mem_cons_of_mem c hx)
          rw [ih hchnd' f (c.id :: visited) hfuel' hvis']
          have hrev : (c :: p :: rest).reverse = (p :: rest).reverse ++ [c] := by simp
          rw [hrev, List.map_append, List.map_singleton]
          have hne : ((p :: rest).reverse.map Compartment.name) ≠ [] := by simp
          rw [pyJoin_append_singleton "/" c.name _ hne]
          simp [String.append_assoc]

/-- C3 (amended): in a compartment hierarchy with distinct ids, no
parent-link cycles and the tenancy id not among the listed compartments,
every non-root entry returned by `list_compartments` carries a path equal
to the concatenation of ancestor names from the tenancy root down to that
compartment joined by `/`; the root entry itself instead carries the path
`"<tenancy name> (root)"`, and the returned list is sorted by path. -/
theorem list_compartments_paths (tid tname : String) (comps : List Compartment)
    (hnd : (comps.map Compartment.id).Nodup)
    (htid : tid ∉ comps.map Compartment.id) :
    (∀ e ∈ list_compartments tid tname comps,
      (e.id = tid → e.path = tname ++ " (root)") ∧
      (∀ c ∈ comps, c.id = e.id → ∀ ch, Chain tid comps c ch →
        (ch.map Compartment.id).Nodup →
        e.path = tname ++ "/" ++ pyJoin "/" (ch.reverse.map Compartment.name))) ∧
    List.Sorted (fun a b => pyStrLe a.path b.path = true)
      (list_compartments tid tname comps) := by
  have hlist : list_compartments tid tname comps
      = pySort (fun a b => pyStrLe a.path b.path)
          (({ id := tid, name := tname, path := tname ++ " (root)" } : CompartmentEntry)
            :: comps.map (fun comp =>
              ({ id := comp.id, name := comp.name,
                 path := get_path tid tname comps (comps.length + 2) comp.id [] } :
                CompartmentEntry))) := rfl
  constructor
  · intro e he
    rw [hlist] at he
    rcases List.mem_cons.mp (mem_pySort.mp he) with hroot | hmem
    · refine ⟨fun _ => by rw [hroot], fun c hc hcid ch hch hchnd => ?_⟩
      exfalso
      have hcid' : c.id = tid := by
        rw [hroot] at hcid
        simpa using hcid
      exact htid (hcid' ▸ List.mem_map_of_mem Compartment.id hc)
    · obtain ⟨comp, hcomp, hce⟩ := List.mem_map.mp hmem
      have heid : e.id = comp.id := by rw [← hce]
      refine ⟨fun hetid => ?_, fun c hc hcid ch hch hchnd => ?_⟩
      · exfalso
        rw [heid] at hetid
        exact htid (hetid ▸ List.mem_map_of_mem Compartment.id hcomp)
      · have hcc : c = comp := by
          have h1 := find_comp_eq comps hnd c hc
          have h2 := find_comp_eq comps hnd comp hcomp
          have hid : c.id = comp.id := by rw [hcid, heid]
          rw [hid] at h1
          rw [h1] at h2
          exact Option.some.inj h2
        have hpath : e.path = get_path tid tname comps (comps.length + 2) comp.id [] := by
          rw [← hce]
        have hlen : ch.length ≤ comps.length + 2 := by
          have hsub : ch.map Compartment.id ⊆ comps.map Compartment.id := by
            intro x hx
            obtain ⟨y, hy, hyx⟩ := List.mem_map.mp hx
            exact hyx ▸ List.mem_map_of_mem Compartment.id (chain_mem_comps hch y hy)
          have := (hchnd.subperm hsub).length_le
          simp only [List.length_map] at this
          omega
        rw [hpath, ← hcc]
        exact get_path_chain tid tname comps hnd htid c ch hch hchnd
          (comps.length + 2) [] hlen (fun x _ => List.not_mem_nil x.id)
  · rw [hlist]
    exact sorted_pySort (fun a b : CompartmentEntry => pyStrLe a.path b.path)
      (fun a b => pyStrLe_total a.path b.path)
      (fun a b c => pyStrLe_trans a.path b.path c.path) _

theorem list_compartments_paths_witness :
    (list_compartments "ocid1.tenancy" "T"
        [⟨"c1", "A", "ocid1.tenancy"⟩, ⟨"c2", "B", "c1"⟩]).map (fun e => e.path)
      = ["T (root)", "T/A", "T/A/B"] ∧
    ((∀ e ∈ list_compartments "ocid1.tenancy" "T"
        [⟨"c1", "A", "ocid1.tenancy"⟩, ⟨"c2", "B", "c1"⟩],
      (e.id = "ocid1.tenancy" → e.path = "T" ++ " (root)") ∧
      (∀ c ∈ ([⟨"c1", "A", "ocid1.tenancy"⟩, ⟨"c2", "B", "c1"⟩] : List Compartment),
        c.id = e.id →
        ∀ ch, Chain "ocid1.tenancy" [⟨"c1", "A", "ocid1.tenancy"⟩, ⟨"c2", "B", "c1"⟩] c ch →
        (ch.map Compartment.id).Nodup →
        e.path = "T" ++ "/" ++ pyJoin "/" (ch.reverse.map Compartment.name))) ∧
    List.Sorted (fun a b => pyStrLe a.path b.path = true)
      (list_compartments "ocid1.tenancy" "T"
        [⟨"c1", "A", "ocid1.tenancy"⟩, ⟨"c2", "B", "c1"⟩])) :=
  ⟨by decide,
   list_compartments_paths "ocid1.tenancy" "T"
     [⟨"c1", "A", "ocid1.tenancy"⟩, ⟨"c2", "B", "c1"⟩] (by decide) (by decide)⟩
